import Mathlib

/-!
Shallow embedding of the `ofws` map-generation core (the `ofws_core` crate):
the attribute store, the generator/transformer algebra, the generation steps
and the name-based serialization/validation layer, together with theorems
settling the specification claims about them.

Machine integers are embedded as `Nat`/`Int` with explicit truncation where the
source truncates; `f32`/`f64` arithmetic is embedded as exact rational
arithmetic (`ℚ`), with Rust's saturating float-to-integer casts made explicit.
-/

namespace Ofws

/-! ### Numeric casts -/

/-- Rust's truncating integer-to-`u8` cast (`as u8` on `u32`/`usize`). -/
def toU8 (n : Nat) : Nat := n % 256

/-- Rounding toward zero, the first step of Rust's float-to-integer casts. -/
def ratTrunc (q : ℚ) : ℤ := if 0 ≤ q then ⌊q⌋ else ⌈q⌉

/-- Rust's `as u8` cast on floats: round toward zero, then saturate to
`0..=255`.  (For values `≥ 0` rounding toward zero is `⌊·⌋`, and negative
values saturate to `0`, which `Int.toNat` performs.) -/
def ratAsU8 (q : ℚ) : Nat := (min 255 ⌊q⌋).toNat

/-- Rust's `as u32` cast on floats: round toward zero, saturate to `u32`. -/
def ratAsU32 (q : ℚ) : Nat := (min 4294967295 ⌊q⌋).toNat

/-- Rust's `as i32` cast on floats: round toward zero, saturate to `i32`. -/
def ratAsI32 (q : ℚ) : ℤ := max (-2147483648) (min 2147483647 (ratTrunc q))

/-! ### `data/math/size2d.rs` -/

/-- Defines the size of something (e.g. a map) in 2 dimensions. -/
structure Size2d where
  width : Nat
  height : Nat
  deriving DecidableEq, Repr

namespace Size2d

/-- Returns the area covered by this size. -/
def getArea (s : Size2d) : Nat := s.width * s.height

/-- Converts a point to the equivalent index. -/
def toIndex (s : Size2d) (x y : Nat) : Nat := y * s.width + x

/-- Converts a point to the equivalent index; coordinates outside the map are
limited to width & height.  (The source computes `x.min(self.width - 1)` on
`u32`; for `width = 0` that subtraction overflows, so the theorems below
assume positive dimensions.) -/
def saturatingToIndex (s : Size2d) (x y : Nat) : Nat :=
  (min y (s.height - 1)) * s.width + min x (s.width - 1)

/-- Modelled from the spec: `Size2d::to_index_risky` lives in the crate's
`math/size2d.rs`, which is not among the provided sources; per the spec's
clusterer lookup `table[y*size.width + x]` it is the unchecked index
conversion. -/
def toIndexRisky (s : Size2d) (x y : Nat) : Nat := y * s.width + x

end Size2d

/-! ### `data/map/attribute.rs` -/

/-- Represents a value with a specific meaning for each cell of a map
(elevation, rainfall, temperature, ...). -/
structure Attribute where
  name : String
  size : Size2d
  values : List Nat
  deriving DecidableEq, Repr

namespace Attribute

/-- Embeds `Attribute::new`: asserts `size.get_area() == values.len()`; the panic of
a failed assertion is embedded as `none`. -/
def new (name : String) (size : Size2d) (values : List Nat) : Option Attribute :=
  if size.getArea = values.length then some ⟨name, size, values⟩ else none

/-- Embeds `Attribute::default_value`: an attribute filled with a default value. -/
def defaultValue (name : String) (size : Size2d) (default : Nat) : Option Attribute :=
  new name size (List.replicate size.getArea default)

/-- Embeds `Attribute::get`: returns the value at the index; panics (here `none`)
if the index is outside the map. -/
def get (a : Attribute) (index : Nat) : Option Nat := a.values[index]?

/-- The write through `Attribute::get_mut`: set one cell. -/
def set (a : Attribute) (index : Nat) (value : Nat) : Attribute :=
  { a with values := a.values.set index value }

/-- Embeds `Attribute::replace_values` (called `replace_all` at some call sites):
asserts that the number of new values matches; a failed assertion panics,
embedded as `none`, leaving the attribute untouched. -/
def replaceValues (a : Attribute) (values : List Nat) : Option Attribute :=
  if values.length = a.values.length then some { a with values := values } else none

end Attribute

/-! ### `data/map/mod.rs` -/

/-- Represents a 2d region or world map.  The `HashMap<String, usize>`
attribute lookup is embedded as an association list in insertion order; only
`contains_key`, `insert` (of fresh keys) and `get` are used on it, on which
the two agree. -/
structure Map2d where
  name : String
  size : Size2d
  attributeLookup : List (String × Nat)
  attributes : List Attribute
  deriving DecidableEq, Repr

namespace Map2d

/-- Embeds `HashMap::contains_key` on the association list. -/
def containsKey (lookup : List (String × Nat)) (key : String) : Bool :=
  lookup.any (fun p => p.1 == key)

/-- Embeds `Map2d::with_name`: a fresh map with no attributes. -/
def withName (name : String) (size : Size2d) : Map2d :=
  ⟨name, size, [], []⟩

/-- Embeds `Map2d::new`. -/
def new (size : Size2d) : Map2d := withName "test" size

/-- Embeds `Map2d::add_attribute`: fails (returns `none` as the id) on a duplicate
name, otherwise appends the attribute and returns its id. -/
def addAttribute (map : Map2d) (a : Attribute) : Map2d × Option Nat :=
  let id := map.attributes.length
  if containsKey map.attributeLookup a.name then
    (map, none)
  else
    ({ map with
        attributeLookup := map.attributeLookup ++ [(a.name, id)],
        attributes := map.attributes ++ [a] },
      some id)

/-- Embeds `Map2d::create_attribute`.  The outer `Option` is the assertion inside
`Attribute::new` (which cannot fire here, as proved below). -/
def createAttribute (map : Map2d) (name : String) (default : Nat) :
    Option (Map2d × Option Nat) :=
  (Attribute.defaultValue name map.size default).map map.addAttribute

/-- Embeds `Map2d::create_attribute_from`. -/
def createAttributeFrom (map : Map2d) (name : String) (values : List Nat) :
    Option (Map2d × Option Nat) :=
  (Attribute.new name map.size values).map map.addAttribute

/-- Embeds `Map2d::get_attribute_id`. -/
def getAttributeIdOf (map : Map2d) (name : String) : Option Nat :=
  (map.attributeLookup.find? (fun p => p.1 == name)).map (·.2)

/-- Embeds `Map2d::get_attribute`: panics (here `none`) on an unknown id. -/
def getAttribute (map : Map2d) (id : Nat) : Option Attribute :=
  map.attributes[id]?

/-- The `map.get_attribute_mut(id)` / `attribute.replace_all(values)` call
pair every step ends with: replace the backing array of attribute `id`. -/
def replaceAttributeValues (map : Map2d) (id : Nat) (values : List Nat) :
    Option Map2d := do
  let a ← map.getAttribute id
  let a2 ← a.replaceValues values
  pure { map with attributes := map.attributes.set id a2 }

end Map2d

/-! ### `data/math/interpolation/mod.rs` -/

/-- Embeds `lerp(start, end, factor)`: interpolates between 2 `u8` linearly.  The
`f32` factor is embedded as an exact rational; the `(diff * factor) as u8`
casts saturate (`ratAsU8`). -/
def lerp (start endVal : Nat) (factor : ℚ) : Nat :=
  if factor > 1 then
    endVal
  else if endVal ≥ start then
    start + ratAsU8 ((endVal - start : Nat) * factor)
  else
    start - ratAsU8 ((start - endVal : Nat) * factor)

/-! ### `data/math/distance.rs` -/

/-- Returns the absolute difference between 2 unsigned integers. -/
def absDiff (a b : Nat) : Nat := if a < b then b - a else a - b

/-- Returns the distance between 2 points in 2d space (integer square root). -/
def calculateDistance (x0 y0 x1 y1 : Nat) : Nat :=
  Nat.sqrt (absDiff x0 x1 ^ 2 + absDiff y0 y1 ^ 2)

/-! ### `data/math/transformer/threshold.rs` -/

/-- Overwrites the input if above or below a threshold (`u8` instance). -/
structure OverwriteWithThreshold where
  value : Nat
  threshold : Nat
  deriving DecidableEq, Repr

namespace OverwriteWithThreshold

def new (value threshold : Nat) : OverwriteWithThreshold := ⟨value, threshold⟩

/-- Overwrites the output, if the input is equal or above the threshold. -/
def overwriteOutputIfAbove (o : OverwriteWithThreshold) (input output : Nat) : Nat :=
  if input ≥ o.threshold then o.value else output

/-- Overwrites the output, if the input is equal or below the threshold. -/
def overwriteOutputIfBelow (o : OverwriteWithThreshold) (input output : Nat) : Nat :=
  if input ≤ o.threshold then o.value else output

end OverwriteWithThreshold

/-! ### `data/math/transformer/clusterer2d.rs` -/

inductive Clusterer2dError where
  | tooFewClusters (n : Nat)
  | sizeMismatch (area len : Nat)
  deriving DecidableEq, Repr

/-- Embeds `calculate_cluster_size`: `(256.0 / n as f32).ceil() as u32`.  For every
`n ≥ 1` the correctly rounded `f32` quotient has absolute error below
`256 · 2⁻²⁴ < 1/n ≤` the distance from `256/n` to the next integer in either
direction, so the `f32` ceiling equals the exact ceiling `⌈256/n⌉`, embedded
here as `(256 + n - 1) / n`.  (`n = 0` is unreachable from `Clusterer2d::new`.) -/
def calculateClusterSize (numberOfClusters : Nat) : Nat :=
  (256 + numberOfClusters - 1) / numberOfClusters

/-- Determines a cluster id from both inputs, e.g. biome from rainfall &
temperature. -/
structure Clusterer2d where
  lookupTableSize : Size2d
  clusterSize : Size2d
  clusterIdLookup : List Nat
  deriving DecidableEq, Repr

namespace Clusterer2d

/-- Embeds `Clusterer2d::new`: rejects a lookup table whose length differs from the
size's area, or with fewer than 2 entries. -/
def new (size : Size2d) (clusterIdLookup : List Nat) :
    Except Clusterer2dError Clusterer2d :=
  if size.getArea ≠ clusterIdLookup.length then
    .error (.sizeMismatch size.getArea clusterIdLookup.length)
  else if clusterIdLookup.length < 2 then
    .error (.tooFewClusters clusterIdLookup.length)
  else
    .ok ⟨size,
      ⟨calculateClusterSize size.width, calculateClusterSize size.height⟩,
      clusterIdLookup⟩

/-- Embeds `Clusterer2d::cluster`: calculates the cluster of 2 inputs; the
out-of-bounds panic on the lookup is embedded as `none`. -/
def cluster (c : Clusterer2d) (input0 input1 : Nat) : Option Nat :=
  let x := input0 / c.clusterSize.width
  let y := input1 / c.clusterSize.height
  c.clusterIdLookup[c.lookupTableSize.toIndexRisky x y]?

end Clusterer2d

/-! ### `data/math/transformer/transformer2d.rs` -/

inductive Transformer2dError where
  | clusterer (e : Clusterer2dError)
  deriving DecidableEq, Repr

/-- Transforms 2 inputs into an output. -/
inductive Transformer2d where
  | clusterer (c : Clusterer2d)
  | const (value : Nat)
  | overwriteIfAboveThreshold (data : OverwriteWithThreshold)
  | overwriteIfBelowThreshold (data : OverwriteWithThreshold)
  deriving DecidableEq, Repr

namespace Transformer2d

def newOverwriteIfAbove (value threshold : Nat) : Transformer2d :=
  .overwriteIfAboveThreshold (OverwriteWithThreshold.new value threshold)

def newOverwriteIfBelow (value threshold : Nat) : Transformer2d :=
  .overwriteIfBelowThreshold (OverwriteWithThreshold.new value threshold)

/-- Embeds `Transformer2d::transform`; the clusterer branch can panic (`none`). -/
def transform (t : Transformer2d) (input0 input1 : Nat) : Option Nat :=
  match t with
  | .clusterer c => c.cluster input0 input1
  | .const value => some value
  | .overwriteIfAboveThreshold data => some (data.overwriteOutputIfAbove input0 input1)
  | .overwriteIfBelowThreshold data => some (data.overwriteOutputIfBelow input0 input1)

end Transformer2d

/-- For serializing, deserializing & validating `Transformer2d`.  The
clusterer variant carries the already validated `Clusterer2d` itself. -/
inductive Transformer2dData where
  | clusterer (c : Clusterer2d)
  | const (value : Nat)
  | overwriteIfAboveThreshold (data : OverwriteWithThreshold)
  | overwriteIfBelowThreshold (data : OverwriteWithThreshold)
  deriving DecidableEq, Repr

namespace Transformer2dData

/-- Embeds `TryFrom<Transformer2dData> for Transformer2d` (infallible in every
branch, but typed as a fallible conversion). -/
def tryConvert (d : Transformer2dData) : Except Transformer2dError Transformer2d :=
  match d with
  | .clusterer c => .ok (.clusterer c)
  | .const value => .ok (.const value)
  | .overwriteIfAboveThreshold o => .ok (.overwriteIfAboveThreshold o)
  | .overwriteIfBelowThreshold o => .ok (.overwriteIfBelowThreshold o)

/-- Embeds `From<&Transformer2d> for Transformer2dData`. -/
def ofTransformer (t : Transformer2d) : Transformer2dData :=
  match t with
  | .clusterer c => .clusterer c
  | .const value => .const value
  | .overwriteIfAboveThreshold o => .overwriteIfAboveThreshold o
  | .overwriteIfBelowThreshold o => .overwriteIfBelowThreshold o

end Transformer2dData

/-! ### `data/math/generator/noise.rs`

The coherent-noise primitive (`SuperSimplex`) is an external collaborator the
spec treats as an opaque deterministic function `noise(seed, x, y) ∈ [-1, 1]`;
the definitions below take it as an explicit parameter `noiseFn`. -/

/-- For serializing, deserializing & validating `Noise`. -/
structure NoiseData where
  seed : Nat
  scale : Nat
  minValue : Nat
  maxValue : Nat
  deriving DecidableEq, Repr

/-- Hides the noise function; `scale`, `base` and `factor` are `f64` fields,
embedded as exact rationals; the seeded algorithm is kept as its seed. -/
structure Noise where
  seed : Nat
  scale : ℚ
  base : ℚ
  factor : ℚ
  deriving DecidableEq, Repr

namespace Noise

/-- Embeds `Noise::new`: fails if the scale is not positive or `min_value >= max_value`. -/
def new (seed : Nat) (scale : ℚ) (minValue maxValue : Nat) : Except String Noise :=
  if scale ≤ 0 then
    .error "Noise's scale must be positive!"
  else if minValue ≥ maxValue then
    .error "Noise's min_value must be smaller than max_value!"
  else
    .ok ⟨seed, scale, 1 + (minValue : ℚ) / 255, ((maxValue - minValue : Nat) : ℚ) / 2⟩

/-- Embeds `TryFrom<NoiseData> for Noise`. -/
def tryFrom (d : NoiseData) : Except String Noise :=
  new d.seed (d.scale : ℚ) d.minValue d.maxValue

/-- Embeds `Noise::generate1d` over the opaque primitive `noiseFn`. -/
def generate1d (noiseFn : Nat → ℚ → ℚ → ℚ) (n : Noise) (input : Nat) : Nat :=
  ratAsU8 ((noiseFn n.seed ((input : ℚ) / n.scale) 0 + n.base) * n.factor)

/-- Embeds `Noise::generate2d` over the opaque primitive `noiseFn`. -/
def generate2d (noiseFn : Nat → ℚ → ℚ → ℚ) (n : Noise) (x y : Nat) : Nat :=
  ratAsU8 ((noiseFn n.seed ((x : ℚ) / n.scale) ((y : ℚ) / n.scale) + n.base) * n.factor)

end Noise

/-- Embeds `From<&Noise> for NoiseData`: recomputes the portable fields from the
stored `base` and `factor`. -/
def NoiseData.ofNoise (n : Noise) : NoiseData :=
  let minValue := ratAsU8 ((n.base - 1) * 255)
  ⟨n.seed, ratAsU32 n.scale, minValue, ratAsU8 (n.factor * 2) + minValue⟩

/-! ### `data/math/generator/gradient.rs` -/

/-- Modelled from the spec: the crate's `math/generator/gradient.rs` is not
among the provided sources; per §4.2, `Gradient(value_start, value_end, start,
length)` returns `value_start` for `input <= start` and otherwise
`lerp(value_start, value_end, (input-start)/length)`, with an absolute
(symmetric) variant `lerp(value_center, value_end, |center-input|/length)`. -/
structure Gradient where
  valueStart : Nat
  valueEnd : Nat
  start : Nat
  length : Nat
  deriving DecidableEq, Repr

namespace Gradient

/-- Modelled from the spec (§4.2): the plain gradient. -/
def generate (g : Gradient) (input : Nat) : Nat :=
  if input ≤ g.start then g.valueStart
  else lerp g.valueStart g.valueEnd (((input - g.start : Nat) : ℚ) / g.length)

/-- Modelled from the spec (§4.2): the absolute (symmetric) gradient. -/
def generateAbsolute (g : Gradient) (input : Nat) : Nat :=
  lerp g.valueStart g.valueEnd ((absDiff g.start input : ℚ) / g.length)

end Gradient

/-! ### `data/math/interpolation/vector.rs` -/

/-- Modelled from the spec: the crate's `VectorInterpolation<u32, u8>` file is
not among the provided sources; per §4.2 it is piecewise-linear interpolation
across an ordered list of `(threshold, value)` pairs, already validated at
construction (2 or more entries, ordered thresholds). -/
structure VectorInterpolation where
  vector : List (Nat × Nat)
  deriving DecidableEq, Repr

/-- Modelled from the spec (§4.2): at or below the first threshold the first
value, above the last the last value, otherwise linear interpolation between
the bracketing pair. -/
def interpolatePairs : List (Nat × Nat) → Nat → Nat
  | [], _ => 0
  | [(_, value)], _ => value
  | (t1, v1) :: (t2, v2) :: rest, input =>
    if input ≤ t1 then v1
    else if input ≤ t2 then lerp v1 v2 (((input - t1 : Nat) : ℚ) / ((t2 - t1 : Nat) : ℚ))
    else interpolatePairs ((t2, v2) :: rest) input

def VectorInterpolation.interpolate (v : VectorInterpolation) (input : Nat) : Nat :=
  interpolatePairs v.vector input

/-! ### `data/math/generator/generator1d.rs` -/

/-- The error of resolving a portable `Generator1d`; the noise error is the
`&'static str` returned by `Noise::new`. -/
inductive Generator1dError where
  | noise (e : String)
  deriving DecidableEq, Repr

/-- Generates values for a 1d input. -/
inductive Generator1d where
  | absoluteGradient (gradient : Gradient)
  | gradient (gradient : Gradient)
  | inputAsOutput
  | interpolateVector (interpolator : VectorInterpolation)
  | noise (noise : Noise)
  deriving DecidableEq, Repr

/-- Embeds `Generator1d::generate`: generates an output for an input
(`InputAsOutput` is the truncating `input as u8`). -/
def Generator1d.generate (noiseFn : Nat → ℚ → ℚ → ℚ) (g : Generator1d) (input : Nat) : Nat :=
  match g with
  | .absoluteGradient grad => grad.generateAbsolute input
  | .gradient grad => grad.generate input
  | .inputAsOutput => toU8 input
  | .interpolateVector interpolator => interpolator.interpolate input
  | .noise n => n.generate1d noiseFn input

/-- For serializing, deserializing & validating `Generator1d`. -/
inductive Generator1dData where
  | absoluteGradient (gradient : Gradient)
  | gradient (gradient : Gradient)
  | inputAsOutput
  | interpolateVector (interpolator : VectorInterpolation)
  | noise (data : NoiseData)
  deriving DecidableEq, Repr

/-- Embeds `TryFrom<Generator1dData> for Generator1d`: only the noise payload can
fail. -/
def Generator1dData.tryConvert (d : Generator1dData) :
    Except Generator1dError Generator1d :=
  match d with
  | .absoluteGradient grad => .ok (.absoluteGradient grad)
  | .gradient grad => .ok (.gradient grad)
  | .inputAsOutput => .ok .inputAsOutput
  | .interpolateVector interpolator => .ok (.interpolateVector interpolator)
  | .noise nd =>
    match Noise.tryFrom nd with
    | .error e => .error (.noise e)
    | .ok n => .ok (.noise n)

/-- Embeds `From<&Generator1d> for Generator1dData`. -/
def Generator1dData.ofGenerator (g : Generator1d) : Generator1dData :=
  match g with
  | .absoluteGradient grad => .absoluteGradient grad
  | .gradient grad => .gradient grad
  | .inputAsOutput => .inputAsOutput
  | .interpolateVector interpolator => .interpolateVector interpolator
  | .noise n => .noise (NoiseData.ofNoise n)

/-! ### `data/math/generator/generator2d.rs` -/

/-- Modelled from the spec: the revision of `generator2d.rs` defining
`Generator2dError` is not among the provided sources (the provided revision
uses `&'static str`); the error wraps the failing inner conversion. -/
inductive Generator2dError where
  | generator1d (e : Generator1dError)
  | noise (e : String)
  deriving DecidableEq, Repr

/-- Generates values for 2d points; used for procedural generation of 2d maps. -/
inductive Generator2d where
  | applyToX (generator : Generator1d)
  | applyToY (generator : Generator1d)
  | applyToDistance (generator : Generator1d) (centerX centerY : Nat)
  | indexGenerator (size : Size2d)
  | noise2d (noise : Noise)
  deriving DecidableEq, Repr

/-- Embeds `Generator2d::generate`: generates a value for a 2d point `(x, y)`; the
index generator truncates `saturating_to_index` with `as u8`. -/
def Generator2d.generate (noiseFn : Nat → ℚ → ℚ → ℚ) (g : Generator2d) (x y : Nat) : Nat :=
  match g with
  | .applyToX generator => generator.generate noiseFn x
  | .applyToY generator => generator.generate noiseFn y
  | .applyToDistance generator centerX centerY =>
    generator.generate noiseFn (calculateDistance centerX centerY x y)
  | .indexGenerator size => toU8 (size.saturatingToIndex x y)
  | .noise2d n => n.generate2d noiseFn x y

/-- For serializing, deserializing & validating `Generator2d`. -/
inductive Generator2dData where
  | applyToX (generator : Generator1dData)
  | applyToY (generator : Generator1dData)
  | applyToDistance (generator : Generator1dData) (centerX centerY : Nat)
  | indexGenerator (size : Size2d)
  | noise2d (data : NoiseData)
  deriving DecidableEq, Repr

/-- Embeds `TryFrom<Generator2dData> for Generator2d`. -/
def Generator2dData.tryConvert (d : Generator2dData) :
    Except Generator2dError Generator2d :=
  match d with
  | .applyToX g =>
    match g.tryConvert with
    | .error e => .error (.generator1d e)
    | .ok r => .ok (.applyToX r)
  | .applyToY g =>
    match g.tryConvert with
    | .error e => .error (.generator1d e)
    | .ok r => .ok (.applyToY r)
  | .applyToDistance g cx cy =>
    match g.tryConvert with
    | .error e => .error (.generator1d e)
    | .ok r => .ok (.applyToDistance r cx cy)
  | .indexGenerator size => .ok (.indexGenerator size)
  | .noise2d nd =>
    match Noise.tryFrom nd with
    | .error e => .error (.noise e)
    | .ok n => .ok (.noise2d n)

/-- Embeds `From<Generator2d> for Generator2dData`. -/
def Generator2dData.ofGenerator (g : Generator2d) : Generator2dData :=
  match g with
  | .applyToX generator => .applyToX (Generator1dData.ofGenerator generator)
  | .applyToY generator => .applyToY (Generator1dData.ofGenerator generator)
  | .applyToDistance generator cx cy =>
    .applyToDistance (Generator1dData.ofGenerator generator) cx cy
  | .indexGenerator size => .indexGenerator size
  | .noise2d n => .noise2d (NoiseData.ofNoise n)

/-! ### `data/map/generation/step.rs`: errors and name resolution -/

/-- The error of resolving one portable generation step. -/
inductive GenerationStepError where
  | attributeUnknown (name : String)
  | generator1d (e : Generator1dError)
  | generator2d (e : Generator2dError)
  | transformer2d (e : Transformer2dError)
  deriving DecidableEq, Repr

/-- Embeds `get_attribute_id`: the position of the first occurrence of the name in
the known-attributes table, or `AttributeUnknown`. -/
def getAttributeId (name : String) (attributes : List String) :
    Except GenerationStepError Nat :=
  match attributes.findIdx? (fun n => n == name) with
  | some i => .ok i
  | none => .error (.attributeUnknown name)

/-! ### `data/map/generation/attributes/create.rs` -/

/-- Create a new `Attribute` of the map. -/
structure CreateAttribute where
  name : String
  default : Nat
  deriving DecidableEq, Repr

/-- Embeds `CreateAttribute::run`: the return value of `create_attribute` is
discarded by the source, so a duplicate name leaves the map unchanged. -/
def CreateAttribute.run (c : CreateAttribute) (map : Map2d) : Option Map2d :=
  (map.createAttribute c.name c.default).map (·.1)

/-! ### `data/map/generation/distortion1d.rs` -/

/-- Shifts each column or row of an `Attribute` based on a `Generator1d`. -/
structure Distortion1d where
  attributeId : Nat
  generator : Generator1d
  deriving DecidableEq, Repr

namespace Distortion1d

/-- Embeds `Distortion1d::distort_row`: `shift` copies of the row's first value,
then the row's values truncated to `width.saturating_sub(shift)`.  The source
pushes onto the shared output vector; this returns the pushed segment. -/
def distortRow (y shift : Nat) (a : Attribute) : Option (List Nat) := do
  let start := a.size.toIndex 0 y
  let startValue ← a.get start
  let width := a.size.width - shift
  let rest ← (List.range width).mapM (fun x => a.get (start + x))
  pure (List.replicate shift startValue ++ rest)

/-- Embeds `Distortion1d::distort_map_along_x`. -/
def distortMapAlongX (noiseFn : Nat → ℚ → ℚ → ℚ) (d : Distortion1d) (map : Map2d) :
    Option (List Nat) := do
  let a ← map.getAttribute d.attributeId
  let rows ← (List.range map.size.height).mapM
    (fun y => distortRow y (d.generator.generate noiseFn y) a)
  pure rows.flatten

/-- Embeds `Distortion1d::distort_along_x`: shifts each row along the x-axis.  The
leading `map.get_attribute(...)` read comes from the source's log line. -/
def distortAlongX (noiseFn : Nat → ℚ → ℚ → ℚ) (d : Distortion1d) (map : Map2d) :
    Option Map2d := do
  let _ ← map.getAttribute d.attributeId
  let values ← distortMapAlongX noiseFn d map
  map.replaceAttributeValues d.attributeId values

end Distortion1d

/-- Modelled from the spec: the portable form of the distort steps
(`attributes/distortion1d.rs`) is not among the provided sources; per §4.5 and
§6 it references the attribute by name and carries the portable generator. -/
structure Distortion1dData where
  attributeName : String
  generator : Generator1dData
  deriving DecidableEq, Repr

/-- Modelled from the spec (§4.5): resolve the name, then the generator. -/
def Distortion1dData.tryConvert (d : Distortion1dData) (attributes : List String) :
    Except GenerationStepError Distortion1d := do
  let id ← getAttributeId d.attributeName attributes
  match d.generator.tryConvert with
  | .error e => throw (.generator1d e)
  | .ok g => pure ⟨id, g⟩

/-- Modelled from the spec (§4.5): the reverse conversion rebuilds the name
from the replayed table, like `Distortion2d::convert` in the sources does
(indexing out of bounds panics; resolution only produces in-bounds ids). -/
def Distortion1d.convert (d : Distortion1d) (attributes : List String) : Distortion1dData :=
  ⟨attributes.getD d.attributeId "", Generator1dData.ofGenerator d.generator⟩

/-! ### `data/map/generation/attributes/distortion2d.rs` -/

/-- Distorts an `Attribute` along 2 dimensions. -/
structure Distortion2d where
  attributeId : Nat
  generatorX : Generator2d
  generatorY : Generator2d
  deriving DecidableEq, Repr

/-- For serializing, deserializing & validating `Distortion2d`. -/
structure Distortion2dData where
  attributeName : String
  generatorX : Generator2dData
  generatorY : Generator2dData
  deriving DecidableEq, Repr

/-- Embeds `Distortion2dData::try_convert`: attribute name first, then both
generators. -/
def Distortion2dData.tryConvert (d : Distortion2dData) (attributes : List String) :
    Except GenerationStepError Distortion2d := do
  let id ← getAttributeId d.attributeName attributes
  match d.generatorX.tryConvert with
  | .error e => throw (.generator2d e)
  | .ok gx =>
    match d.generatorY.tryConvert with
    | .error e => throw (.generator2d e)
    | .ok gy => pure ⟨id, gx, gy⟩

/-- Embeds `Distortion2d::convert`: rebuilds the name from the replayed table. -/
def Distortion2d.convert (d : Distortion2d) (attributes : List String) : Distortion2dData :=
  ⟨attributes.getD d.attributeId "",
    Generator2dData.ofGenerator d.generatorX, Generator2dData.ofGenerator d.generatorY⟩

/-! ### the generator step (`attributes/generator.rs`) -/

/-- Modelled from the spec: `attributes/generator.rs` is not among the
provided sources; per §4.4 the resolved `GeneratorStep` holds the target
attribute id and a `Generator2d`. -/
structure GeneratorStep where
  attributeId : Nat
  generator : Generator2d
  deriving DecidableEq, Repr

/-- Modelled from the spec: the portable generator step references its
attribute by name. -/
structure GeneratorStepData where
  attributeName : String
  generator : Generator2dData
  deriving DecidableEq, Repr

/-- Modelled from the spec (§4.5): resolve the name, then the generator. -/
def GeneratorStepData.tryConvert (d : GeneratorStepData) (attributes : List String) :
    Except GenerationStepError GeneratorStep := do
  let id ← getAttributeId d.attributeName attributes
  match d.generator.tryConvert with
  | .error e => throw (.generator2d e)
  | .ok g => pure ⟨id, g⟩

/-- Modelled from the spec (§4.5): rebuild the name from the replayed table. -/
def GeneratorStep.convert (g : GeneratorStep) (attributes : List String) : GeneratorStepData :=
  ⟨attributes.getD g.attributeId "", Generator2dData.ofGenerator g.generator⟩

/-! ### `data/map/generation/attributes/modify.rs` (the resolved pipeline step) -/

namespace Attributes

/-- Modifies one `Attribute` with another transformed one; carries the
resolved ids and the portable names, and the `f32` factor as a rational. -/
structure ModifyWithAttribute where
  sourceId : Nat
  sourceName : String
  targetId : Nat
  targetName : String
  factor : ℚ
  minimum : Nat
  deriving DecidableEq, Repr

end Attributes

/-- For serializing, deserializing & validating `ModifyWithAttribute`.  The
`percentage` field is an `i32`. -/
structure ModifyWithAttributeData where
  source : String
  target : String
  percentage : ℤ
  minimum : Nat
  deriving DecidableEq, Repr

/-- Embeds `ModifyWithAttributeData::try_convert`: source name, target name, then
`factor = percentage as f32 / 100.0`. -/
def ModifyWithAttributeData.tryConvert (d : ModifyWithAttributeData)
    (attributes : List String) : Except GenerationStepError Attributes.ModifyWithAttribute := do
  let sourceId ← getAttributeId d.source attributes
  let targetId ← getAttributeId d.target attributes
  pure ⟨sourceId, d.source, targetId, d.target, (d.percentage : ℚ) / 100, d.minimum⟩

/-- Embeds `From<&ModifyWithAttribute> for ModifyWithAttributeData`:
`percentage = (factor * 100.0) as i32`. -/
def ModifyWithAttributeData.ofStep (m : Attributes.ModifyWithAttribute) :
    ModifyWithAttributeData :=
  ⟨m.sourceName, m.targetName, ratAsI32 (m.factor * 100), m.minimum⟩

/-! ### `data/map/generation/attributes/transformer.rs` -/

structure TransformerNames where
  name : String
  source0 : String
  source1 : String
  target : String
  deriving DecidableEq, Repr

/-- Transforms 2 `Attribute`s and writes into another. -/
structure TransformAttribute2d where
  sourceId0 : Nat
  sourceId1 : Nat
  targetId : Nat
  names : TransformerNames
  transformer : Transformer2d
  deriving DecidableEq, Repr

namespace TransformAttribute2d

/-- Embeds `TransformAttribute2d::transform`: per-index transformation of the two
source snapshots. -/
def transform (t : TransformAttribute2d) (map : Map2d) : Option (List Nat) := do
  let source0 ← map.getAttribute t.sourceId0
  let source1 ← map.getAttribute t.sourceId1
  (List.range map.size.getArea).mapM (fun index => do
    let value0 ← source0.get index
    let value1 ← source1.get index
    t.transformer.transform value0 value1)

/-- Embeds `TransformAttribute2d::run`: compute the transformed array, then replace
the target attribute's backing array. -/
def run (t : TransformAttribute2d) (map : Map2d) : Option Map2d := do
  let biomes ← transform t map
  map.replaceAttributeValues t.targetId biomes

end TransformAttribute2d

/-- For serializing, deserializing & validating `TransformAttribute2d`. -/
structure TransformAttribute2dData where
  name : String
  source0 : String
  source1 : String
  target : String
  transformer : Transformer2dData
  deriving DecidableEq, Repr

/-- Embeds `TransformAttribute2dData::try_convert`: the three names in order, then
the transformer. -/
def TransformAttribute2dData.tryConvert (d : TransformAttribute2dData)
    (attributes : List String) : Except GenerationStepError TransformAttribute2d := do
  let sourceId0 ← getAttributeId d.source0 attributes
  let sourceId1 ← getAttributeId d.source1 attributes
  let targetId ← getAttributeId d.target attributes
  match d.transformer.tryConvert with
  | .error e => throw (.transformer2d e)
  | .ok transformer =>
    pure ⟨sourceId0, sourceId1, targetId, ⟨d.name, d.source0, d.source1, d.target⟩, transformer⟩

/-- Embeds `From<&TransformAttribute2d> for TransformAttribute2dData`: rebuilt from
the stored names. -/
def TransformAttribute2dData.ofStep (t : TransformAttribute2d) : TransformAttribute2dData :=
  ⟨t.names.name, t.names.source0, t.names.source1, t.names.target,
    Transformer2dData.ofTransformer t.transformer⟩

/-! ### `data/map/generation/modify.rs`

An earlier, self-contained revision of the modify step kept in the repository;
its constructor takes `(source_id, target_id, factor, minimum)` and stores the
factor already adjusted by `255 / (255 - minimum)`. -/

namespace Modify

/-- Modifies one `Attribute` with another transformed one. -/
structure ModifyWithAttribute where
  sourceId : Nat
  targetId : Nat
  factor : ℚ
  minimum : Nat
  deriving DecidableEq, Repr

namespace ModifyWithAttribute

/-- Embeds `ModifyWithAttribute::new`: stores `factor * 255.0 / (255.0 - minimum)`. -/
def new (sourceId targetId : Nat) (factor : ℚ) (minimum : Nat) : ModifyWithAttribute :=
  ⟨sourceId, targetId, factor * 255 / (255 - (minimum : ℚ)), minimum⟩

/-- Embeds `ModifyWithAttribute::calculate_value`:
`(target as f32 + (source.max(minimum) - minimum) as f32 * factor) as u8`. -/
def calculateValue (m : ModifyWithAttribute) (source target : Nat) : Nat :=
  ratAsU8 ((target : ℚ) + ((max source m.minimum - m.minimum : Nat) : ℚ) * m.factor)

/-- Embeds `ModifyWithAttribute::calculate_values`: per-index combination of the two
attribute snapshots. -/
def calculateValues (m : ModifyWithAttribute) (map : Map2d) : Option (List Nat) := do
  let source ← map.getAttribute m.sourceId
  let target ← map.getAttribute m.targetId
  (List.range map.size.getArea).mapM (fun index => do
    let s ← source.get index
    let t ← target.get index
    pure (m.calculateValue s t))

/-- Embeds `ModifyWithAttribute::run`: compute the new array, then replace the
target attribute's backing array.  The two leading reads come from the
source's log line (`map.get_attribute(target).get_name()`, then source). -/
def run (m : ModifyWithAttribute) (map : Map2d) : Option Map2d := do
  let _ ← map.getAttribute m.targetId
  let _ ← map.getAttribute m.sourceId
  let values ← m.calculateValues map
  map.replaceAttributeValues m.targetId values

end ModifyWithAttribute

end Modify

/-! ### `data/map/generation/step.rs` and `mod.rs`: the step list -/

/-- A step during `MapGeneration`, with attribute references resolved to ids. -/
inductive GenerationStep where
  | createAttribute (step : CreateAttribute)
  | distortAlongX (step : Distortion1d)
  | distortAlongY (step : Distortion1d)
  | distortion2d (step : Distortion2d)
  | generatorAdd (step : GeneratorStep)
  | generatorSub (step : GeneratorStep)
  | modifyWithAttribute (step : Attributes.ModifyWithAttribute)
  | transformAttribute2d (step : TransformAttribute2d)
  deriving DecidableEq, Repr

/-- For serializing, deserializing & validating `GenerationStep`. -/
inductive GenerationStepData where
  | createAttribute (step : CreateAttribute)
  | distortAlongX (step : Distortion1dData)
  | distortAlongY (step : Distortion1dData)
  | distortion2d (step : Distortion2dData)
  | generatorAdd (step : GeneratorStepData)
  | generatorSub (step : GeneratorStepData)
  | modifyWithAttribute (step : ModifyWithAttributeData)
  | transformAttribute2d (step : TransformAttribute2dData)
  deriving DecidableEq, Repr

/-- Embeds `GenerationStepData::try_convert`: a `CreateAttribute` pushes its name
onto the known-attributes table; every other step resolves its names against
the table as built so far.  The mutated `&mut Vec<String>` table is returned
alongside the resolved step. -/
def GenerationStepData.tryConvert (s : GenerationStepData) (attributes : List String) :
    Except GenerationStepError (GenerationStep × List String) :=
  match s with
  | .createAttribute step => .ok (.createAttribute step, attributes ++ [step.name])
  | .distortAlongX step =>
    match step.tryConvert attributes with
    | .error e => .error e
    | .ok r => .ok (.distortAlongX r, attributes)
  | .distortAlongY step =>
    match step.tryConvert attributes with
    | .error e => .error e
    | .ok r => .ok (.distortAlongY r, attributes)
  | .distortion2d step =>
    match step.tryConvert attributes with
    | .error e => .error e
    | .ok r => .ok (.distortion2d r, attributes)
  | .generatorAdd step =>
    match step.tryConvert attributes with
    | .error e => .error e
    | .ok r => .ok (.generatorAdd r, attributes)
  | .generatorSub step =>
    match step.tryConvert attributes with
    | .error e => .error e
    | .ok r => .ok (.generatorSub r, attributes)
  | .modifyWithAttribute step =>
    match step.tryConvert attributes with
    | .error e => .error e
    | .ok r => .ok (.modifyWithAttribute r, attributes)
  | .transformAttribute2d step =>
    match step.tryConvert attributes with
    | .error e => .error e
    | .ok r => .ok (.transformAttribute2d r, attributes)

/-- Embeds `GenerationStep::convert` (the reverse conversion `mod.rs` replays; its
revision of `step.rs` is not among the provided sources, so the create case is
modelled from the spec's §4.5 "rebuilds the same names deterministically by
replaying the same table-construction order"): a `CreateAttribute` pushes its
name, id-carrying steps look their names up in the replayed table, and the
modify/transform steps use their stored names. -/
def GenerationStep.convert (s : GenerationStep) (attributes : List String) :
    GenerationStepData × List String :=
  match s with
  | .createAttribute step => (.createAttribute step, attributes ++ [step.name])
  | .distortAlongX step => (.distortAlongX (step.convert attributes), attributes)
  | .distortAlongY step => (.distortAlongY (step.convert attributes), attributes)
  | .distortion2d step => (.distortion2d (step.convert attributes), attributes)
  | .generatorAdd step => (.generatorAdd (step.convert attributes), attributes)
  | .generatorSub step => (.generatorSub (step.convert attributes), attributes)
  | .modifyWithAttribute step => (.modifyWithAttribute (ModifyWithAttributeData.ofStep step), attributes)
  | .transformAttribute2d step => (.transformAttribute2d (TransformAttribute2dData.ofStep step), attributes)

/-- The error of resolving a whole pipeline.  The source enum also carries
`IoError`/`SerdeError` variants produced only by the file I/O wrappers, which
are out of the embedded core. -/
inductive MapGenerationError where
  | generationStep (index : Nat) (error : GenerationStepError)
  deriving DecidableEq, Repr

/-- The enumerated, short-circuiting resolution of a step list
(`data.steps.into_iter().enumerate().map(..).collect::<Result<Vec<_>, _>>()`),
threading the known-attributes table and tagging errors with the step index. -/
def tryConvertSteps :
    List GenerationStepData → List String → Nat →
    Except MapGenerationError (List GenerationStep × List String)
  | [], attributes, _ => .ok ([], attributes)
  | s :: rest, attributes, index =>
    match s.tryConvert attributes with
    | .error e => .error (.generationStep index e)
    | .ok (r, attributes2) =>
      match tryConvertSteps rest attributes2 (index + 1) with
      | .error e => .error e
      | .ok (rs, attributes3) => .ok (r :: rs, attributes3)

/-- The reverse conversion of a step list, replaying the table construction. -/
def convertSteps :
    List GenerationStep → List String → List GenerationStepData × List String
  | [], attributes => ([], attributes)
  | r :: rest, attributes =>
    let (d, attributes2) := r.convert attributes
    let (ds, attributes3) := convertSteps rest attributes2
    (d :: ds, attributes3)

/-- Generates a map based on a number of steps. -/
structure MapGeneration where
  name : String
  size : Size2d
  steps : List GenerationStep
  deriving DecidableEq, Repr

/-- For serializing, deserializing & validating `MapGeneration`. -/
structure MapGenerationData where
  name : String
  size : Size2d
  steps : List GenerationStepData
  deriving DecidableEq, Repr

/-- Embeds `TryFrom<MapGenerationData> for MapGeneration`: resolve all steps against
an initially empty known-attributes table. -/
def MapGeneration.tryFrom (data : MapGenerationData) :
    Except MapGenerationError MapGeneration :=
  match tryConvertSteps data.steps [] 0 with
  | .error e => .error e
  | .ok (steps, _) => .ok ⟨data.name, data.size, steps⟩

/-- Embeds `From<&MapGeneration> for MapGenerationData`: serialize back to portable
form, replaying the table construction from an empty table. -/
def MapGenerationData.ofGeneration (g : MapGeneration) : MapGenerationData :=
  ⟨g.name, g.size, (convertSteps g.steps []).1⟩

/-! ### Spec-side validity predicates (the claims' notion of a valid portable
pipeline; written from the claims' words, for comparison with the code) -/

/-- The attribute names a portable step references (in the order the step's
`try_convert` resolves them); a `CreateAttribute` references none. -/
def stepRefs : GenerationStepData → List String
  | .createAttribute _ => []
  | .distortAlongX step => [step.attributeName]
  | .distortAlongY step => [step.attributeName]
  | .distortion2d step => [step.attributeName]
  | .generatorAdd step => [step.attributeName]
  | .generatorSub step => [step.attributeName]
  | .modifyWithAttribute step => [step.source, step.target]
  | .transformAttribute2d step => [step.source0, step.source1, step.target]

/-- The name a `CreateAttribute` declares, if any. -/
def stepDeclares : GenerationStepData → List String
  | .createAttribute step => [step.name]
  | _ => []

/-- The names declared by the `CreateAttribute` steps of a list, in order. -/
def declaredAttributes (steps : List GenerationStepData) : List String :=
  (steps.map stepDeclares).flatten

/-- The first referenced name a step cannot resolve against the table. -/
def firstBadRef (s : GenerationStepData) (attributes : List String) : Option String :=
  (stepRefs s).find? (fun n => !(attributes.contains n))

/-- Every step's references are declared by a strictly earlier
`CreateAttribute` (or are in the initial table). -/
def validRefsFrom : List GenerationStepData → List String → Bool
  | [], _ => true
  | s :: rest, attributes =>
    (stepRefs s).all (fun n => attributes.contains n) &&
      validRefsFrom rest (attributes ++ stepDeclares s)

/-- The claims' validity of a portable pipeline: every step references only
attribute names declared by strictly earlier `CreateAttribute` steps. -/
def MapGenerationData.validRefs (data : MapGenerationData) : Bool :=
  validRefsFrom data.steps []

/-- A valid noise configuration: positive scale (the `u32` scale is cast to
`f64`, so `scale <= 0.0` means `scale = 0`) and `min_value < max_value`. -/
def NoiseData.valid (d : NoiseData) : Bool :=
  0 < d.scale && d.minValue < d.maxValue

/-- The noise payloads of a portable 1d generator. -/
def Generator1dData.noises : Generator1dData → List NoiseData
  | .noise nd => [nd]
  | _ => []

/-- The noise payloads of a portable 2d generator. -/
def Generator2dData.noises : Generator2dData → List NoiseData
  | .applyToX g => g.noises
  | .applyToY g => g.noises
  | .applyToDistance g _ _ => g.noises
  | .indexGenerator _ => []
  | .noise2d nd => [nd]

/-- The noise payloads of a portable step. -/
def stepNoises : GenerationStepData → List NoiseData
  | .createAttribute _ => []
  | .distortAlongX step => step.generator.noises
  | .distortAlongY step => step.generator.noises
  | .distortion2d step => step.generatorX.noises ++ step.generatorY.noises
  | .generatorAdd step => step.generator.noises
  | .generatorSub step => step.generator.noises
  | .modifyWithAttribute _ => []
  | .transformAttribute2d _ => []

/-- Every generator configuration of the pipeline is valid (rejected
otherwise by `Noise::new` during resolution). -/
def MapGenerationData.validConfigs (data : MapGenerationData) : Bool :=
  data.steps.all (fun s => (stepNoises s).all NoiseData.valid)

/-- The fixed-width fields of a noise payload fit in their Rust types
(`u32` scale, `u8` bounds); automatically true in the source. -/
def NoiseData.wellTyped (d : NoiseData) : Bool :=
  d.scale ≤ 4294967295 && d.minValue ≤ 255 && d.maxValue ≤ 255

/-- The fixed-width fields the round trip recomputes stay in their Rust
ranges (`u8` noise bounds, `i32` modify percentage); automatically true in
the source, where the fields carry those types. -/
def stepWellTyped : GenerationStepData → Bool
  | .modifyWithAttribute step =>
    decide (-2147483648 ≤ step.percentage ∧ step.percentage ≤ 2147483647)
  | s => (stepNoises s).all NoiseData.wellTyped

def MapGenerationData.wellTyped (data : MapGenerationData) : Bool :=
  data.steps.all stepWellTyped

/-! ## Helper lemmas -/

theorem mapM_congr_some {α β : Type} (l : List α) (f : α → Option β) (g : α → β)
    (h : ∀ x ∈ l, f x = some (g x)) : l.mapM f = some (l.map g) := by
  induction l with
  | nil => rfl
  | cons a t ih =>
    rw [List.mapM_cons, h a (List.mem_cons_self a t),
      ih (fun x hx => h x (List.mem_cons_of_mem a hx))]
    rfl

theorem sum_map_const {α : Type} (l : List α) (f : α → Nat) (w : Nat)
    (h : ∀ x ∈ l, f x = w) : (l.map f).sum = l.length * w := by
  induction l with
  | nil => simp
  | cons a t ih =>
    rw [List.map_cons, List.sum_cons, h a (List.mem_cons_self a t),
      ih (fun x hx => h x (List.mem_cons_of_mem a hx)), List.length_cons]
    ring

theorem range_map_getD_eq_take_drop (l : List Nat) (s n : Nat) (h : s + n ≤ l.length) :
    (List.range n).map (fun x => l.getD (s + x) 0) = (l.drop s).take n := by
  apply List.ext_getElem?
  intro i
  by_cases hi : i < n
  · have hsi : s + i < l.length := by omega
    rw [List.getElem?_map, List.getElem?_range hi, List.getElem?_take_of_lt hi,
      List.getElem?_drop, List.getElem?_eq_getElem hsi]
    simp [List.getD, List.getElem?_eq_getElem hsi]
  · have h1 : ((List.range n).map (fun x => l.getD (s + x) 0)).length ≤ i := by
      simpa using Nat.le_of_not_lt hi
    have h2 : ((l.drop s).take n).length ≤ i := by
      have := List.length_take_le n (l.drop s)
      omega
    rw [List.getElem?_eq_none h1, List.getElem?_eq_none h2]

/-! ## Claim C3: the attribute length invariant -/

/-- C3: for every `Attribute` with size `S`, `values.length == S.width * S.height`
holds at construction and is preserved by every operation: `Attribute::new`
fails fatally when the vector's length differs from the area (and otherwise
establishes the invariant, as does `default_value`), the single-cell write
through `get_mut` preserves it, and `replace_values` fails fatally — leaving
the old values in place — exactly when the replacement's length differs from
the current length, and otherwise preserves the invariant. -/
theorem c3_attribute_invariant (name : String) (size : Size2d)
    (values newValues : List Nat) (default : Nat) (a : Attribute) :
    (∀ b, Attribute.new name size values = some b → b.values.length = b.size.getArea) ∧
    (Attribute.new name size values = none ↔ size.getArea ≠ values.length) ∧
    (∀ b, Attribute.defaultValue name size default = some b →
      b.values.length = b.size.getArea) ∧
    (∀ i v, (a.set i v).values.length = a.values.length) ∧
    (a.replaceValues newValues = none ↔ newValues.length ≠ a.values.length) ∧
    (a.values.length = a.size.getArea →
      ∀ b, a.replaceValues newValues = some b → b.values.length = b.size.getArea) := by
  refine ⟨?_, ?_, ?_, ?_, ?_, ?_⟩
  · intro b hb
    unfold Attribute.new at hb
    split at hb
    · cases hb
      simpa using (by assumption : size.getArea = values.length).symm
    · cases hb
  · unfold Attribute.new
    split <;> simp_all
  · intro b hb
    unfold Attribute.defaultValue Attribute.new at hb
    split at hb
    · cases hb
      simp
    · cases hb
  · intro i v
    simp [Attribute.set]
  · unfold Attribute.replaceValues
    split <;> simp_all
  · intro hinv b hb
    unfold Attribute.replaceValues at hb
    split at hb
    · cases hb
      simp_all
    · cases hb

/-- Witness for C3 at concrete inputs: a 2×3 attribute. -/
theorem c3_witness :
    (∀ b, Attribute.new "elevation" ⟨2, 3⟩ [1, 2, 3, 4, 5, 6] = some b →
      b.values.length = b.size.getArea) ∧
    ((⟨"elevation", ⟨2, 3⟩, [1, 2, 3, 4, 5, 6]⟩ : Attribute).replaceValues [9] = none ↔
      (1 : Nat) ≠ 6) :=
  ⟨(c3_attribute_invariant "elevation" ⟨2, 3⟩ [1, 2, 3, 4, 5, 6] [9] 0
      ⟨"elevation", ⟨2, 3⟩, [1, 2, 3, 4, 5, 6]⟩).1,
    by
      have h := (c3_attribute_invariant "elevation" ⟨2, 3⟩ [1, 2, 3, 4, 5, 6] [9] 0
        ⟨"elevation", ⟨2, 3⟩, [1, 2, 3, 4, 5, 6]⟩).2.2.2.2.1
      simpa using h⟩

/-! ## Claim C10: `Map2d::create_attribute` -/

/-- C10: `create_attribute(name, default)` returns `None` and leaves the
attribute list and the name lookup unchanged when the name already exists;
otherwise it returns `Some(n)` with `n` the number of attributes before the
call, appends exactly one attribute, and records the name at index `n`. -/
theorem c10_create_attribute (map : Map2d) (name : String) (default : Nat) :
    (Map2d.containsKey map.attributeLookup name = true →
      map.createAttribute name default = some (map, none)) ∧
    (Map2d.containsKey map.attributeLookup name = false →
      map.createAttribute name default = some
        ({ map with
            attributeLookup := map.attributeLookup ++ [(name, map.attributes.length)],
            attributes := map.attributes ++
              [⟨name, map.size, List.replicate map.size.getArea default⟩] },
          some map.attributes.length)) := by
  have hdef : Attribute.defaultValue name map.size default =
      some ⟨name, map.size, List.replicate map.size.getArea default⟩ := by
    unfold Attribute.defaultValue Attribute.new
    simp
  constructor
  · intro hdup
    unfold Map2d.createAttribute
    rw [hdef]
    simp [Map2d.addAttribute, hdup]
  · intro hfresh
    unfold Map2d.createAttribute
    rw [hdef]
    simp [Map2d.addAttribute, hfresh]

/-- Witness for C10: a fresh name on a one-attribute map, then the duplicate. -/
theorem c10_witness :
    (⟨"m", ⟨2, 1⟩, [("a", 0)], [⟨"a", ⟨2, 1⟩, [5, 5]⟩]⟩ : Map2d).createAttribute "b" 7
      = some (⟨"m", ⟨2, 1⟩, [("a", 0), ("b", 1)],
          [⟨"a", ⟨2, 1⟩, [5, 5]⟩, ⟨"b", ⟨2, 1⟩, [7, 7]⟩]⟩, some 1) ∧
    (⟨"m", ⟨2, 1⟩, [("a", 0)], [⟨"a", ⟨2, 1⟩, [5, 5]⟩]⟩ : Map2d).createAttribute "a" 7
      = some (⟨"m", ⟨2, 1⟩, [("a", 0)], [⟨"a", ⟨2, 1⟩, [5, 5]⟩]⟩, none) := by
  constructor
  · have h := (c10_create_attribute
      ⟨"m", ⟨2, 1⟩, [("a", 0)], [⟨"a", ⟨2, 1⟩, [5, 5]⟩]⟩ "b" 7).2 (by decide)
    rw [h]
    decide
  · have h := (c10_create_attribute
      ⟨"m", ⟨2, 1⟩, [("a", 0)], [⟨"a", ⟨2, 1⟩, [5, 5]⟩]⟩ "a" 7).1 (by decide)
    rw [h]

/-! ## Claim C4: the `TransformAttribute2d` end-to-end example -/

/-- C4: on a 3×2 map with `source0 = [0,1,99,100,101,255]`,
`source1 = [200,199,198,197,196,195]` and a target created with default 10,
running `TransformAttribute2d` with `OverwriteIfBelowThreshold(42, 100)`
leaves both sources unchanged and replaces the target's values with
`[42,42,42,42,196,195]`. -/
theorem c4_transform_end_to_end :
    (((Map2d.new ⟨3, 2⟩).createAttributeFrom "input0" [0, 1, 99, 100, 101, 255]).bind
      (fun p => (p.1.createAttributeFrom "input1" [200, 199, 198, 197, 196, 195]).bind
        (fun q => (q.1.createAttribute "target" 10).bind
          (fun r => TransformAttribute2d.run
            ⟨0, 1, 2, ⟨"", "input0", "input1", "target"⟩,
              Transformer2d.newOverwriteIfBelow 42 100⟩ r.1))))
    = some ⟨"test", ⟨3, 2⟩, [("input0", 0), ("input1", 1), ("target", 2)],
        [⟨"input0", ⟨3, 2⟩, [0, 1, 99, 100, 101, 255]⟩,
          ⟨"input1", ⟨3, 2⟩, [200, 199, 198, 197, 196, 195]⟩,
          ⟨"target", ⟨3, 2⟩, [42, 42, 42, 42, 196, 195]⟩]⟩ := by
  decide

/-! ## Claim C8: byte linear interpolation -/

/-- C8: `lerp(start, end, factor)` behaves as if the factor were clamped to
`[0,1]`: any factor `≤ 0` returns `start`, any factor `≥ 1` returns `end`,
otherwise the result is `start ± floor(diff * factor)` in the direction of
`end`; and the byte arithmetic never leaves `[min start end, max start end]`,
so it never wraps. -/
theorem c8_lerp_clamps (start endVal : Nat) (factor : ℚ)
    (hs : start ≤ 255) (he : endVal ≤ 255) :
    (factor ≤ 0 → lerp start endVal factor = start) ∧
    (1 ≤ factor → lerp start endVal factor = endVal) ∧
    (0 < factor → factor < 1 →
      lerp start endVal factor =
        if start ≤ endVal
        then start + (⌊((endVal - start : Nat) : ℚ) * factor⌋).toNat
        else start - (⌊((start - endVal : Nat) : ℚ) * factor⌋).toNat) ∧
    (min start endVal ≤ lerp start endVal factor ∧
      lerp start endVal factor ≤ max start endVal) := by
  have hcast : ∀ d : Nat, d ≤ 255 → ∀ f : ℚ, f ≤ 1 → ratAsU8 ((d : ℚ) * f) ≤ d := by
    intro d hd f hf
    have hq : (d : ℚ) * f ≤ (d : ℚ) :=
      mul_le_of_le_one_right (by positivity) hf
    have hfl : ⌊(d : ℚ) * f⌋ ≤ (d : ℤ) := by
      calc ⌊(d : ℚ) * f⌋ ≤ ⌊(d : ℚ)⌋ := Int.floor_le_floor hq
        _ = (d : ℤ) := Int.floor_natCast d
    have h2 : min 255 ⌊(d : ℚ) * f⌋ ≤ (d : ℤ) := le_trans (min_le_right _ _) hfl
    unfold ratAsU8
    omega
  have hneg : ∀ d : Nat, ∀ f : ℚ, f ≤ 0 → ratAsU8 ((d : ℚ) * f) = 0 := by
    intro d f hf
    have hq : (d : ℚ) * f ≤ 0 := mul_nonpos_of_nonneg_of_nonpos (by positivity) hf
    have hfl : ⌊(d : ℚ) * f⌋ ≤ 0 := Int.floor_nonpos hq
    have h2 : min 255 ⌊(d : ℚ) * f⌋ ≤ 0 := le_trans (min_le_right _ _) hfl
    unfold ratAsU8
    omega
  have hone : ∀ d : Nat, d ≤ 255 → ratAsU8 ((d : ℚ) * 1) = d := by
    intro d hd
    unfold ratAsU8
    rw [mul_one, Int.floor_natCast,
      min_eq_right (by exact_mod_cast hd : (d : ℤ) ≤ 255)]
    omega
  refine ⟨?_, ?_, ?_, ?_⟩
  · intro hf
    unfold lerp
    rw [if_neg (by linarith)]
    split
    · rw [hneg _ _ hf]
      omega
    · rw [hneg _ _ hf]
      omega
  · intro hf
    unfold lerp
    by_cases hgt : factor > 1
    · rw [if_pos hgt]
    · have hf1 : factor = 1 := le_antisymm (not_lt.mp hgt) hf
      subst hf1
      rw [if_neg (by norm_num)]
      split
      · rw [hone _ (by omega)]
        omega
      · rw [hone _ (by omega)]
        omega
  · intro h0 h1
    unfold lerp
    rw [if_neg (by linarith)]
    have hmin : ∀ d : Nat, d ≤ 255 → ratAsU8 ((d : ℚ) * factor) =
        (⌊((d : Nat) : ℚ) * factor⌋).toNat := by
      intro d hd
      have hq : (d : ℚ) * factor ≤ (d : ℚ) :=
        mul_le_of_le_one_right (by positivity) (le_of_lt h1)
      have hfl : ⌊(d : ℚ) * factor⌋ ≤ (d : ℤ) := by
        calc ⌊(d : ℚ) * factor⌋ ≤ ⌊(d : ℚ)⌋ := Int.floor_le_floor hq
          _ = (d : ℤ) := Int.floor_natCast d
      unfold ratAsU8
      rw [min_eq_right (le_trans hfl (by exact_mod_cast hd))]
    split <;> rw [hmin _ (by omega)]
  · unfold lerp
    by_cases hgt : factor > 1
    · rw [if_pos hgt]
      omega
    · rw [if_neg hgt]
      split
      · have hb := hcast (endVal - start) (by omega) factor (not_lt.mp hgt)
        omega
      · have hb := hcast (start - endVal) (by omega) factor (not_lt.mp hgt)
        omega

/-- Witness for C8 at `start = 100`, `end = 200`, factors `-1/2`, `3/2`, `1/2`. -/
theorem c8_witness :
    lerp 100 200 (-1/2 : ℚ) = 100 ∧ lerp 100 200 (3/2 : ℚ) = 200 ∧
    lerp 100 200 (1/2 : ℚ) = 150 := by
  have h1 := (c8_lerp_clamps 100 200 (-1/2 : ℚ) (by norm_num) (by norm_num)).1 (by norm_num)
  have h2 := (c8_lerp_clamps 100 200 (3/2 : ℚ) (by norm_num) (by norm_num)).2.1 (by norm_num)
  have h3 := (c8_lerp_clamps 100 200 (1/2 : ℚ) (by norm_num) (by norm_num)).2.2.1
    (by norm_num) (by norm_num)
  refine ⟨h1, h2, ?_⟩
  rw [h3]
  norm_num
  decide

/-! ## Claim C9: the index generator -/

/-- Counterexample for C9 as stated: `IndexGenerator(size = (2,3))` at
`(x, y) = (5, 0)` returns the clamped index `1`, not `(y*width + x) mod 256 = 5`. -/
theorem c9_counterexample :
    Generator2d.generate (fun _ _ _ => 0) (.indexGenerator ⟨2, 3⟩) 5 0 = 1 ∧
    (0 * 2 + 5) % 256 = 5 ∧
    Generator2d.generate (fun _ _ _ => 0) (.indexGenerator ⟨2, 3⟩) 5 0 ≠ (0 * 2 + 5) % 256 := by
  refine ⟨?_, by norm_num, ?_⟩ <;> decide

/-- C9 (amended): for positive dimensions, `IndexGenerator(size)` returns
`(min(y, height-1) * width + min(x, width-1)) mod 256` — the coordinates are
saturated to the size first — which agrees with the claimed
`(y*width + x) mod 256` exactly when `x < width` and `y < height`. -/
theorem c9_index_generator (noiseFn : Nat → ℚ → ℚ → ℚ) (w h x y : Nat)
    (hw : 0 < w) (hh : 0 < h) :
    Generator2d.generate noiseFn (.indexGenerator ⟨w, h⟩) x y
      = (min y (h - 1) * w + min x (w - 1)) % 256 ∧
    (x < w → y < h →
      Generator2d.generate noiseFn (.indexGenerator ⟨w, h⟩) x y = (y * w + x) % 256) := by
  constructor
  · rfl
  · intro hx hy
    show toU8 (Size2d.saturatingToIndex ⟨w, h⟩ x y) = (y * w + x) % 256
    unfold Size2d.saturatingToIndex toU8
    simp only
    rw [Nat.min_eq_left (by omega), Nat.min_eq_left (by omega)]

/-- Witness for C9 on a 2×3 size at the in-range point `(1, 2)`. -/
theorem c9_witness :
    Generator2d.generate (fun _ _ _ => 0) (.indexGenerator ⟨2, 3⟩) 1 2
      = (min 2 (3 - 1) * 2 + min 1 (2 - 1)) % 256 ∧
    Generator2d.generate (fun _ _ _ => 0) (.indexGenerator ⟨2, 3⟩) 1 2 = (2 * 2 + 1) % 256 :=
  ⟨(c9_index_generator (fun _ _ _ => 0) 2 3 1 2 (by decide) (by decide)).1,
    (c9_index_generator (fun _ _ _ => 0) 2 3 1 2 (by decide) (by decide)).2
      (by decide) (by decide)⟩

/-! ## Claim C7: the clusterer lookup -/

/-- C7: for every successfully constructed `Clusterer2d` and all byte inputs,
`cluster(input0, input1)` equals `table[y*width + x]` where
`x = input0 / ceil(256/width)` and `y = input1 / ceil(256/height)`, and that
index is always within the table's bounds, so the internal out-of-bounds
panic is unreachable. -/
theorem c7_cluster_in_bounds (size : Size2d) (table : List Nat) (c : Clusterer2d)
    (input0 input1 : Nat)
    (hnew : Clusterer2d.new size table = .ok c)
    (h0 : input0 < 256) (h1 : input1 < 256) :
    c.cluster input0 input1
      = table[(input1 / calculateClusterSize size.height) * size.width
          + input0 / calculateClusterSize size.width]? ∧
    (input1 / calculateClusterSize size.height) * size.width
        + input0 / calculateClusterSize size.width < table.length ∧
    (c.cluster input0 input1).isSome = true := by
  have hceil : ∀ w : Nat, 0 < w → 256 ≤ w * calculateClusterSize w := by
    intro w hw
    unfold calculateClusterSize
    have hdm := Nat.div_add_mod (256 + w - 1) w
    have hmlt : (256 + w - 1) % w < w := Nat.mod_lt _ hw
    omega
  unfold Clusterer2d.new at hnew
  split at hnew
  · cases hnew
  · split at hnew
    · cases hnew
    · cases hnew
      rename_i harea hlen
      have harea' : size.getArea = table.length := by omega
      have hlen2 : 2 ≤ table.length := by omega
      have hA : size.width * size.height = table.length := harea'
      have hwpos : 0 < size.width := by
        rcases Nat.eq_zero_or_pos size.width with h | h
        · rw [h, Nat.zero_mul] at hA
          omega
        · exact h
      have hhpos : 0 < size.height := by
        rcases Nat.eq_zero_or_pos size.height with h | h
        · rw [h, Nat.mul_zero] at hA
          omega
        · exact h
      have hcw : 0 < calculateClusterSize size.width := by
        rcases Nat.eq_zero_or_pos (calculateClusterSize size.width) with h | h
        · have h2 := hceil size.width hwpos
          rw [h, Nat.mul_zero] at h2
          omega
        · exact h
      have hch : 0 < calculateClusterSize size.height := by
        rcases Nat.eq_zero_or_pos (calculateClusterSize size.height) with h | h
        · have h2 := hceil size.height hhpos
          rw [h, Nat.mul_zero] at h2
          omega
        · exact h
      have hx : input0 / calculateClusterSize size.width < size.width := by
        rw [Nat.div_lt_iff_lt_mul hcw]
        calc input0 < 256 := h0
          _ ≤ size.width * calculateClusterSize size.width := hceil _ hwpos
      have hy : input1 / calculateClusterSize size.height < size.height := by
        rw [Nat.div_lt_iff_lt_mul hch]
        calc input1 < 256 := h1
          _ ≤ size.height * calculateClusterSize size.height := hceil _ hhpos
      have hidx : (input1 / calculateClusterSize size.height) * size.width
          + input0 / calculateClusterSize size.width < table.length := by
        have h1 : (input1 / calculateClusterSize size.height) * size.width
            + input0 / calculateClusterSize size.width
            < ((input1 / calculateClusterSize size.height) + 1) * size.width := by
          rw [Nat.add_mul, Nat.one_mul]
          omega
        have h2 : ((input1 / calculateClusterSize size.height) + 1) * size.width
            ≤ size.height * size.width :=
          Nat.mul_le_mul_right _ (by omega)
        have h3 : size.height * size.width = table.length := by
          rw [Nat.mul_comm]
          exact hA
        omega
      refine ⟨rfl, hidx, ?_⟩
      show (table[(Size2d.toIndexRisky size _ _)]?).isSome = true
      unfold Size2d.toIndexRisky
      rw [List.getElem?_eq_getElem hidx]
      rfl

/-- Witness for C7: `size = (3, 2)`, `table = [10,20,30,40,50,60]`;
`cluster(0,0) = table[0] = 10` and `cluster(255,255) = table[5] = 60`. -/
theorem c7_witness :
    (⟨⟨3, 2⟩, ⟨86, 128⟩, [10, 20, 30, 40, 50, 60]⟩ : Clusterer2d).cluster 0 0 = some 10 ∧
    (⟨⟨3, 2⟩, ⟨86, 128⟩, [10, 20, 30, 40, 50, 60]⟩ : Clusterer2d).cluster 255 255
      = some 60 := by
  have ha := (c7_cluster_in_bounds ⟨3, 2⟩ [10, 20, 30, 40, 50, 60]
    ⟨⟨3, 2⟩, ⟨86, 128⟩, [10, 20, 30, 40, 50, 60]⟩ 0 0 (by rfl) (by decide) (by decide)).1
  have hb := (c7_cluster_in_bounds ⟨3, 2⟩ [10, 20, 30, 40, 50, 60]
    ⟨⟨3, 2⟩, ⟨86, 128⟩, [10, 20, 30, 40, 50, 60]⟩ 255 255 (by rfl) (by decide) (by decide)).1
  rw [ha, hb]
  decide

/-! ## Claim C5: `ModifyWithAttribute` -/

/-- C5: for every `ModifyWithAttribute` step built by
`ModifyWithAttribute::new(source_id, target_id, factor, minimum)` and every
cell index, running the step replaces the target attribute with
`new_target[i] = old_target[i] + max(0, source[i] - minimum) * adjusted_factor`
cast to a byte, where `adjusted_factor = factor * 255 / (255 - minimum)`.
(`minimum < 255` keeps the adjustment's denominator nonzero, matching the
claim's interpretation of the factor; the attribute lengths are the C3
invariant.) -/
theorem c5_modify_formula (sourceId targetId : Nat) (factor : ℚ) (minimum : Nat)
    (map : Map2d) (src tgt : Attribute)
    (hmin : minimum < 255)
    (hs : map.getAttribute sourceId = some src)
    (ht : map.getAttribute targetId = some tgt)
    (hsl : map.size.getArea ≤ src.values.length)
    (htl : tgt.values.length = map.size.getArea) :
    (Modify.ModifyWithAttribute.new sourceId targetId factor minimum).run map
      = some ⟨map.name, map.size, map.attributeLookup,
          map.attributes.set targetId
            ⟨tgt.name, tgt.size, (List.range map.size.getArea).map (fun i =>
              ratAsU8 ((tgt.values.getD i 0 : ℚ)
                + ((max ((src.values.getD i 0 : ℤ) - minimum) 0 : ℤ) : ℚ)
                  * (factor * 255 / (255 - (minimum : ℚ)))))⟩⟩ := by
  have hmax : ∀ s : Nat, ((max s minimum - minimum : Nat) : ℤ)
      = max ((s : ℤ) - minimum) 0 := by
    intro s
    omega
  have hvals : (Modify.ModifyWithAttribute.new sourceId targetId factor minimum).calculateValues
      map = some ((List.range map.size.getArea).map (fun i =>
        ratAsU8 ((tgt.values.getD i 0 : ℚ)
          + ((max ((src.values.getD i 0 : ℤ) - minimum) 0 : ℤ) : ℚ)
            * (factor * 255 / (255 - (minimum : ℚ)))))) := by
    unfold Modify.ModifyWithAttribute.calculateValues Modify.ModifyWithAttribute.new
    simp only
    rw [hs, ht]
    simp only [Option.bind_eq_bind, Option.some_bind]
    apply mapM_congr_some
    intro i hi
    have hi2 : i < map.size.getArea := List.mem_range.mp hi
    have his : i < src.values.length := by omega
    have hit : i < tgt.values.length := by omega
    unfold Attribute.get
    rw [List.getElem?_eq_getElem his, List.getElem?_eq_getElem hit]
    simp only [Option.some_bind, Option.some.injEq]
    unfold Modify.ModifyWithAttribute.calculateValue
    simp only
    have h1 : src.values.getD i 0 = src.values[i] := by
      simp [List.getD, List.getElem?_eq_getElem his]
    have h2 : tgt.values.getD i 0 = tgt.values[i] := by
      simp [List.getD, List.getElem?_eq_getElem hit]
    rw [h1, h2]
    congr 1
    have h3 : ((max src.values[i] minimum - minimum : Nat) : ℚ)
        = ((max ((src.values[i] : ℤ) - minimum) 0 : ℤ) : ℚ) := by
      rw [← hmax src.values[i]]
      push_cast
      ring
    rw [h3]
  unfold Modify.ModifyWithAttribute.run
  have htid : (Modify.ModifyWithAttribute.new sourceId targetId factor minimum).targetId
      = targetId := rfl
  have hsid : (Modify.ModifyWithAttribute.new sourceId targetId factor minimum).sourceId
      = sourceId := rfl
  rw [htid, hsid, ht, hs, hvals]
  simp only [Option.bind_eq_bind, Option.some_bind]
  unfold Map2d.replaceAttributeValues
  rw [ht]
  simp only [Option.bind_eq_bind, Option.some_bind]
  unfold Attribute.replaceValues
  rw [if_pos (by simp [htl])]
  simp

/-- Witness for C5: the theorem instantiated on a concrete 1×2 map with
`factor = 1` and `minimum = 51` (source value 255 contributes the full byte
range `204 * 255/204 = 255`). -/
theorem c5_witness :
    (Modify.ModifyWithAttribute.new 0 1 1 51).run
        ⟨"m", ⟨1, 2⟩, [("s", 0), ("t", 1)],
          [⟨"s", ⟨1, 2⟩, [255, 0]⟩, ⟨"t", ⟨1, 2⟩, [0, 100]⟩]⟩
      = some ⟨"m", ⟨1, 2⟩, [("s", 0), ("t", 1)],
          ([⟨"s", ⟨1, 2⟩, [255, 0]⟩, ⟨"t", ⟨1, 2⟩, [0, 100]⟩] : List Attribute).set 1
            ⟨"t", ⟨1, 2⟩, (List.range (Size2d.getArea ⟨1, 2⟩)).map (fun i =>
              ratAsU8 (((([0, 100] : List Nat).getD i 0 : Nat) : ℚ)
                + ((max (((([255, 0] : List Nat).getD i 0 : Nat) : ℤ) - (51 : Nat)) 0 : ℤ) : ℚ)
                  * ((1 : ℚ) * 255 / (255 - ((51 : Nat) : ℚ)))))⟩⟩ :=
  c5_modify_formula 0 1 1 51
    ⟨"m", ⟨1, 2⟩, [("s", 0), ("t", 1)],
      [⟨"s", ⟨1, 2⟩, [255, 0]⟩, ⟨"t", ⟨1, 2⟩, [0, 100]⟩]⟩
    ⟨"s", ⟨1, 2⟩, [255, 0]⟩ ⟨"t", ⟨1, 2⟩, [0, 100]⟩
    (by decide) rfl rfl (by decide) (by decide)

/-! ## Claim C6: `DistortAlongX` -/

theorem distortRow_eq (a : Attribute) (y shift : Nat)
    (hw : 0 < a.size.width)
    (hy : y < a.size.height)
    (hlen : a.values.length = a.size.getArea) :
    Distortion1d.distortRow y shift a
      = some (List.replicate shift (a.values.getD (y * a.size.width) 0)
          ++ (a.values.drop (y * a.size.width)).take (a.size.width - shift)) := by
  have harea : a.size.getArea = a.size.width * a.size.height := rfl
  have hrow : (y + 1) * a.size.width ≤ a.values.length := by
    rw [hlen, harea]
    calc (y + 1) * a.size.width ≤ a.size.height * a.size.width :=
      Nat.mul_le_mul_right _ (by omega)
      _ = a.size.width * a.size.height := Nat.mul_comm _ _
  have hstart : y * a.size.width < a.values.length := by
    have : y * a.size.width + a.size.width = (y + 1) * a.size.width := by ring
    omega
  unfold Distortion1d.distortRow
  have hidx : a.size.toIndex 0 y = y * a.size.width := by
    unfold Size2d.toIndex
    omega
  rw [hidx]
  unfold Attribute.get
  dsimp only
  rw [List.getElem?_eq_getElem hstart]
  simp only [Option.bind_eq_bind, Option.some_bind]
  have hrest : (List.range (a.size.width - shift)).mapM
      (fun x => a.values[y * a.size.width + x]?)
      = some ((List.range (a.size.width - shift)).map
          (fun x => a.values.getD (y * a.size.width + x) 0)) := by
    apply mapM_congr_some
    intro x hx
    have hx2 : x < a.size.width - shift := List.mem_range.mp hx
    have hlt : y * a.size.width + x < a.values.length := by
      have h1 : y * a.size.width + x < y * a.size.width + (a.size.width - shift) :=
        Nat.add_lt_add_left hx2 _
      have h2 : y * a.size.width + (a.size.width - shift)
          ≤ y * a.size.width + a.size.width :=
        Nat.add_le_add_left (Nat.sub_le _ _) _
      have h3 : y * a.size.width + a.size.width = (y + 1) * a.size.width := by ring
      exact lt_of_lt_of_le h1 (le_trans h2 (le_of_eq_of_le h3 hrow))
    rw [List.getElem?_eq_getElem hlt]
    simp [List.getD, List.getElem?_eq_getElem hlt]
  rw [hrest]
  simp only [Option.some_bind, Option.some.injEq]
  rw [range_map_getD_eq_take_drop a.values (y * a.size.width) (a.size.width - shift)
    (by
      have h3 : y * a.size.width + a.size.width = (y + 1) * a.size.width := by ring
      exact le_trans (Nat.add_le_add_left (Nat.sub_le _ _) _)
        (le_of_eq_of_le h3 hrow))]
  congr 2
  simp [List.getD, List.getElem?_eq_getElem hstart]

/-- C6 (amended): per row `y` with `shift = generator.generate(y)`, provided
every row's shift is at most the width, the attribute is rebuilt as, per row,
`shift` copies of the row's original leftmost value followed by the row's
original values truncated to `width - shift`; a shift equal to the width
fills the row entirely with the leftmost value.  (For a shift greater than
the width the step instead pushes more than `width` values for that row and
the final replacement fails its length assertion — see the counterexample.) -/
theorem c6_distort_along_x (noiseFn : Nat → ℚ → ℚ → ℚ) (d : Distortion1d)
    (map : Map2d) (a : Attribute)
    (ha : map.getAttribute d.attributeId = some a)
    (hsize : a.size = map.size)
    (hlen : a.values.length = map.size.getArea)
    (hw : 0 < map.size.width)
    (hshift : ∀ y < map.size.height, d.generator.generate noiseFn y ≤ map.size.width) :
    Distortion1d.distortAlongX noiseFn d map
      = some ⟨map.name, map.size, map.attributeLookup,
          map.attributes.set d.attributeId
            ⟨a.name, a.size, ((List.range map.size.height).map (fun y =>
              List.replicate (d.generator.generate noiseFn y)
                  (a.values.getD (y * map.size.width) 0)
                ++ (a.values.drop (y * map.size.width)).take
                    (map.size.width - d.generator.generate noiseFn y))).flatten⟩⟩ := by
  have hrows : (List.range map.size.height).mapM
      (fun y => Distortion1d.distortRow y (d.generator.generate noiseFn y) a)
      = some ((List.range map.size.height).map (fun y =>
          List.replicate (d.generator.generate noiseFn y)
              (a.values.getD (y * map.size.width) 0)
            ++ (a.values.drop (y * map.size.width)).take
                (map.size.width - d.generator.generate noiseFn y))) := by
    apply mapM_congr_some
    intro y hy
    have hy2 : y < map.size.height := List.mem_range.mp hy
    have h := distortRow_eq a y (d.generator.generate noiseFn y)
      (by rw [hsize]; exact hw) (by rw [hsize]; exact hy2)
      (by rw [hsize]; exact hlen)
    rw [h, hsize]
  have hmain : Distortion1d.distortMapAlongX noiseFn d map
      = some ((List.range map.size.height).map (fun y =>
          List.replicate (d.generator.generate noiseFn y)
              (a.values.getD (y * map.size.width) 0)
            ++ (a.values.drop (y * map.size.width)).take
                (map.size.width - d.generator.generate noiseFn y))).flatten := by
    unfold Distortion1d.distortMapAlongX
    rw [ha]
    simp only [Option.bind_eq_bind, Option.some_bind]
    rw [hrows]
    rfl
  have hflatlen : (((List.range map.size.height).map (fun y =>
      List.replicate (d.generator.generate noiseFn y)
          (a.values.getD (y * map.size.width) 0)
        ++ (a.values.drop (y * map.size.width)).take
            (map.size.width - d.generator.generate noiseFn y))).flatten).length
      = a.values.length := by
    rw [List.length_flatten, List.map_map]
    have hmem : ∀ y ∈ List.range map.size.height,
        (List.length ∘ fun y =>
          List.replicate (d.generator.generate noiseFn y)
              (a.values.getD (y * map.size.width) 0)
            ++ (a.values.drop (y * map.size.width)).take
                (map.size.width - d.generator.generate noiseFn y)) y
          = map.size.width := by
      intro y hy
      have hy2 : y < map.size.height := List.mem_range.mp hy
      have hs := hshift y hy2
      have hdroplen : map.size.width - d.generator.generate noiseFn y
          ≤ (a.values.drop (y * map.size.width)).length := by
        rw [List.length_drop, hlen]
        have h1 : (y + 1) * map.size.width ≤ map.size.getArea := by
          have h0 : map.size.getArea = map.size.width * map.size.height := rfl
          rw [h0, Nat.mul_comm]
          exact Nat.mul_le_mul_left _ (Nat.succ_le_of_lt hy2)
        have h3 : y * map.size.width + map.size.width ≤ map.size.getArea := by
          calc y * map.size.width + map.size.width
              = (y + 1) * map.size.width := by ring
            _ ≤ map.size.getArea := h1
        have h4 : map.size.width ≤ map.size.getArea - y * map.size.width :=
          Nat.le_sub_of_add_le (by rw [Nat.add_comm]; exact h3)
        exact le_trans (Nat.sub_le _ _) h4
      simp only [Function.comp, List.length_append, List.length_replicate,
        List.length_take]
      omega
    rw [sum_map_const _ _ map.size.width hmem, List.length_range, hlen]
    exact Nat.mul_comm _ _
  unfold Distortion1d.distortAlongX
  rw [ha]
  simp only [Option.bind_eq_bind, Option.some_bind]
  rw [hmain]
  simp only [Option.some_bind]
  unfold Map2d.replaceAttributeValues
  rw [ha]
  simp only [Option.bind_eq_bind, Option.some_bind]
  unfold Attribute.replaceValues
  rw [if_pos hflatlen]
  simp

/-- Counterexample for C6 as stated: on a 2×4 attribute with the identity
shift generator, row 3 has shift 3 > width 2, so the rebuilt vector has 9
values for an 8-cell attribute and the step fails (panics) instead of filling
the row with the leftmost value. -/
theorem c6_counterexample :
    Distortion1d.distortAlongX (fun _ _ _ => 0) ⟨0, .inputAsOutput⟩
      ⟨"test", ⟨2, 4⟩, [("t", 0)], [⟨"t", ⟨2, 4⟩, [1, 2, 3, 4, 5, 6, 7, 8]⟩]⟩ = none := by
  decide

/-- Witness for C6: the spec's 3×3 example with the identity shift generator,
`[1,2,3,4,5,6,7,8,9] → [1,2,3,4,4,5,7,7,7]`. -/
theorem c6_witness :
    Distortion1d.distortAlongX (fun _ _ _ => 0) ⟨0, .inputAsOutput⟩
      ⟨"test", ⟨3, 3⟩, [("test", 0)], [⟨"test", ⟨3, 3⟩, [1, 2, 3, 4, 5, 6, 7, 8, 9]⟩]⟩
      = some ⟨"test", ⟨3, 3⟩, [("test", 0)],
          [⟨"test", ⟨3, 3⟩, [1, 2, 3, 4, 4, 5, 7, 7, 7]⟩]⟩ := by
  have h := c6_distort_along_x (fun _ _ _ => 0) ⟨0, .inputAsOutput⟩
    ⟨"test", ⟨3, 3⟩, [("test", 0)], [⟨"test", ⟨3, 3⟩, [1, 2, 3, 4, 5, 6, 7, 8, 9]⟩]⟩
    ⟨"test", ⟨3, 3⟩, [1, 2, 3, 4, 5, 6, 7, 8, 9]⟩
    rfl rfl (by decide) (by decide) (by decide)
  rw [h]
  decide

/-! ## Claims C1 and C2: the serialization/validation layer -/

theorem findIdx?_some_get {α : Type} (p : α → Bool) (l : List α) :
    ∀ s i : Nat, List.findIdx? p l s = some i →
      s ≤ i ∧ ∃ x, l[i - s]? = some x ∧ p x = true := by
  induction l with
  | nil =>
    intro s i h
    rw [List.findIdx?_nil] at h
    cases h
  | cons a t ih =>
    intro s i h
    rw [List.findIdx?_cons] at h
    split at h
    · cases h
      refine ⟨le_refl _, a, ?_, by assumption⟩
      simp
    · obtain ⟨hsi, x, hx, hpx⟩ := ih (s + 1) i h
      refine ⟨by omega, x, ?_, hpx⟩
      have hsub : i - s = (i - (s + 1)) + 1 := by omega
      rw [hsub]
      simpa using hx

theorem getAttributeId_ok_get (name : String) (attributes : List String) (i : Nat)
    (h : getAttributeId name attributes = .ok i) : attributes[i]? = some name := by
  unfold getAttributeId at h
  split at h
  · rename_i j hj
    cases h
    obtain ⟨_, x, hx, hpx⟩ := findIdx?_some_get (fun n => n == name) attributes 0 i hj
    rw [Nat.sub_zero] at hx
    rw [hx, (by simpa using hpx : x = name)]
  · cases h

theorem getAttributeId_of_not_mem (name : String) (attributes : List String)
    (h : name ∉ attributes) :
    getAttributeId name attributes = .error (.attributeUnknown name) := by
  unfold getAttributeId
  have hnone : attributes.findIdx? (fun n => n == name) = none := by
    rw [List.findIdx?_eq_none_iff]
    intro x hx
    simp only [beq_eq_false_iff_ne, ne_eq]
    intro hxe
    exact h (hxe ▸ hx)
  rw [hnone]

theorem getAttributeId_of_mem (name : String) (attributes : List String)
    (h : name ∈ attributes) : ∃ i, getAttributeId name attributes = .ok i := by
  unfold getAttributeId
  rcases hcase : attributes.findIdx? (fun n => n == name) with _ | j
  · rw [List.findIdx?_eq_none_iff] at hcase
    have := hcase name h
    simp at this
  · exact ⟨j, rfl⟩

theorem noise_round_trip (nd : NoiseData) (n : Noise)
    (hwt : NoiseData.wellTyped nd = true)
    (h : Noise.tryFrom nd = .ok n) : NoiseData.ofNoise n = nd := by
  have hbounds : nd.scale ≤ 4294967295 ∧ nd.minValue ≤ 255 ∧ nd.maxValue ≤ 255 := by
    unfold NoiseData.wellTyped at hwt
    simp only [Bool.and_eq_true, decide_eq_true_eq] at hwt
    omega
  unfold Noise.tryFrom Noise.new at h
  split at h
  · cases h
  · split at h
    · cases h
    · rename_i hscale hminmax
      have hlt : nd.minValue < nd.maxValue := by omega
      cases h
      unfold NoiseData.ofNoise
      have hmin : ratAsU8 ((1 + (nd.minValue : ℚ) / 255 - 1) * 255) = nd.minValue := by
        have he : (1 + (nd.minValue : ℚ) / 255 - 1) * 255 = (nd.minValue : ℚ) := by
          field_simp
        rw [he]
        unfold ratAsU8
        rw [Int.floor_natCast,
          min_eq_right (by exact_mod_cast hbounds.2.1 : (nd.minValue : ℤ) ≤ 255)]
        omega
      have hmax : ratAsU8 ((((nd.maxValue - nd.minValue : Nat) : ℚ) / 2) * 2)
          = nd.maxValue - nd.minValue := by
        have he : (((nd.maxValue - nd.minValue : Nat) : ℚ) / 2) * 2
            = ((nd.maxValue - nd.minValue : Nat) : ℚ) := by
          field_simp
        rw [he]
        unfold ratAsU8
        rw [Int.floor_natCast,
          min_eq_right
            (by exact_mod_cast (by omega : nd.maxValue - nd.minValue ≤ 255) :
              ((nd.maxValue - nd.minValue : Nat) : ℤ) ≤ 255)]
        omega
      have hscale2 : ratAsU32 ((nd.scale : Nat) : ℚ) = nd.scale := by
        unfold ratAsU32
        rw [Int.floor_natCast,
          min_eq_right (by exact_mod_cast hbounds.1 : (nd.scale : ℤ) ≤ 4294967295)]
        omega
      simp only [hmin, hmax, hscale2]
      have : nd.maxValue - nd.minValue + nd.minValue = nd.maxValue := by omega
      rw [this]

theorem generator1d_round_trip (d : Generator1dData) (g : Generator1d)
    (hwt : d.noises.all NoiseData.wellTyped = true)
    (h : Generator1dData.tryConvert d = .ok g) : Generator1dData.ofGenerator g = d := by
  cases d <;> simp only [Generator1dData.tryConvert] at h
  case absoluteGradient grad => cases h; rfl
  case gradient grad => cases h; rfl
  case inputAsOutput => cases h; rfl
  case interpolateVector v => cases h; rfl
  case noise nd =>
    rcases hn : Noise.tryFrom nd with e | n2
    · rw [hn] at h
      cases h
    · rw [hn] at h
      cases h
      have hw : NoiseData.wellTyped nd = true := by
        simpa [Generator1dData.noises] using hwt
      simp [Generator1dData.ofGenerator, noise_round_trip nd n2 hw hn]

theorem generator2d_round_trip (d : Generator2dData) (g : Generator2d)
    (hwt : d.noises.all NoiseData.wellTyped = true)
    (h : Generator2dData.tryConvert d = .ok g) : Generator2dData.ofGenerator g = d := by
  cases d <;> simp only [Generator2dData.tryConvert] at h
  case applyToX g1 =>
    rcases h1 : g1.tryConvert with e | r
    · rw [h1] at h
      cases h
    · rw [h1] at h
      cases h
      have hw : g1.noises.all NoiseData.wellTyped = true := by
        simpa [Generator2dData.noises] using hwt
      simp [Generator2dData.ofGenerator, generator1d_round_trip g1 r hw h1]
  case applyToY g1 =>
    rcases h1 : g1.tryConvert with e | r
    · rw [h1] at h
      cases h
    · rw [h1] at h
      cases h
      have hw : g1.noises.all NoiseData.wellTyped = true := by
        simpa [Generator2dData.noises] using hwt
      simp [Generator2dData.ofGenerator, generator1d_round_trip g1 r hw h1]
  case applyToDistance g1 cx cy =>
    rcases h1 : g1.tryConvert with e | r
    · rw [h1] at h
      cases h
    · rw [h1] at h
      cases h
      have hw : g1.noises.all NoiseData.wellTyped = true := by
        simpa [Generator2dData.noises] using hwt
      simp [Generator2dData.ofGenerator, generator1d_round_trip g1 r hw h1]
  case indexGenerator size =>
    cases h
    rfl
  case noise2d nd =>
    rcases hn : Noise.tryFrom nd with e | n2
    · rw [hn] at h
      cases h
    · rw [hn] at h
      cases h
      have hw : NoiseData.wellTyped nd = true := by
        simpa [Generator2dData.noises] using hwt
      simp [Generator2dData.ofGenerator, noise_round_trip nd n2 hw hn]

theorem noise_tryFrom_ok (nd : NoiseData) (h : NoiseData.valid nd = true) :
    ∃ n, Noise.tryFrom nd = .ok n := by
  unfold NoiseData.valid at h
  simp only [Bool.and_eq_true, decide_eq_true_eq] at h
  unfold Noise.tryFrom Noise.new
  rw [if_neg, if_neg]
  · exact ⟨_, rfl⟩
  · omega
  · push_neg
    exact_mod_cast h.1

theorem generator1d_tryConvert_ok (d : Generator1dData)
    (h : d.noises.all NoiseData.valid = true) : ∃ g, d.tryConvert = .ok g := by
  cases d <;> simp only [Generator1dData.tryConvert]
  case absoluteGradient grad => exact ⟨_, rfl⟩
  case gradient grad => exact ⟨_, rfl⟩
  case inputAsOutput => exact ⟨_, rfl⟩
  case interpolateVector v => exact ⟨_, rfl⟩
  case noise nd =>
    have hv : NoiseData.valid nd = true := by
      simpa [Generator1dData.noises] using h
    obtain ⟨n, hn⟩ := noise_tryFrom_ok nd hv
    rw [hn]
    exact ⟨_, rfl⟩

theorem generator2d_tryConvert_ok (d : Generator2dData)
    (h : d.noises.all NoiseData.valid = true) : ∃ g, d.tryConvert = .ok g := by
  cases d <;> simp only [Generator2dData.tryConvert]
  case applyToX g1 =>
    obtain ⟨g, hg⟩ := generator1d_tryConvert_ok g1 (by simpa [Generator2dData.noises] using h)
    rw [hg]
    exact ⟨_, rfl⟩
  case applyToY g1 =>
    obtain ⟨g, hg⟩ := generator1d_tryConvert_ok g1 (by simpa [Generator2dData.noises] using h)
    rw [hg]
    exact ⟨_, rfl⟩
  case applyToDistance g1 cx cy =>
    obtain ⟨g, hg⟩ := generator1d_tryConvert_ok g1 (by simpa [Generator2dData.noises] using h)
    rw [hg]
    exact ⟨_, rfl⟩
  case indexGenerator size => exact ⟨_, rfl⟩
  case noise2d nd =>
    obtain ⟨n, hn⟩ := noise_tryFrom_ok nd (by simpa [Generator2dData.noises] using h)
    rw [hn]
    exact ⟨_, rfl⟩

theorem getD_of_getElem? (l : List String) (i : Nat) (x : String)
    (h : l[i]? = some x) : l.getD i "" = x := by
  simp [List.getD, h]

theorem ratAsI32_cast (p : ℤ) (h1 : -2147483648 ≤ p) (h2 : p ≤ 2147483647) :
    ratAsI32 ((p : ℚ) / 100 * 100) = p := by
  have he : (p : ℚ) / 100 * 100 = (p : ℚ) := by field_simp
  rw [he]
  unfold ratAsI32 ratTrunc
  by_cases hp : (0 : ℚ) ≤ (p : ℚ)
  · rw [if_pos hp, Int.floor_intCast]
    omega
  · rw [if_neg hp, Int.ceil_intCast]
    omega

theorem step_table (s : GenerationStepData) (tbl tbl2 : List String)
    (r : GenerationStep) (h : s.tryConvert tbl = .ok (r, tbl2)) :
    tbl2 = tbl ++ stepDeclares s := by
  cases s <;> simp only [GenerationStepData.tryConvert] at h
  case createAttribute c =>
    cases h
    rfl
  case distortAlongX step =>
    rcases hc : step.tryConvert tbl with e | r2 <;> rw [hc] at h
    · cases h
    · cases h
      simp [stepDeclares]
  case distortAlongY step =>
    rcases hc : step.tryConvert tbl with e | r2 <;> rw [hc] at h
    · cases h
    · cases h
      simp [stepDeclares]
  case distortion2d step =>
    rcases hc : step.tryConvert tbl with e | r2 <;> rw [hc] at h
    · cases h
    · cases h
      simp [stepDeclares]
  case generatorAdd step =>
    rcases hc : step.tryConvert tbl with e | r2 <;> rw [hc] at h
    · cases h
    · cases h
      simp [stepDeclares]
  case generatorSub step =>
    rcases hc : step.tryConvert tbl with e | r2 <;> rw [hc] at h
    · cases h
    · cases h
      simp [stepDeclares]
  case modifyWithAttribute step =>
    rcases hc : step.tryConvert tbl with e | r2 <;> rw [hc] at h
    · cases h
    · cases h
      simp [stepDeclares]
  case transformAttribute2d step =>
    rcases hc : step.tryConvert tbl with e | r2 <;> rw [hc] at h
    · cases h
    · cases h
      simp [stepDeclares]

theorem not_mem_of_contains_false (tbl : List String) (name : String)
    (h : tbl.contains name = false) : name ∉ tbl := by
  intro hm
  have h2 : tbl.contains name = true := List.elem_eq_true_of_mem hm
  rw [h2] at h
  cases h

theorem step_fail (s : GenerationStepData) (tbl : List String) (n : String)
    (h : firstBadRef s tbl = some n) :
    s.tryConvert tbl = .error (.attributeUnknown n) := by
  cases s <;>
    simp only [firstBadRef, stepRefs, List.find?_cons, List.find?_nil] at h
  case createAttribute c => cases h
  case distortAlongX step =>
    rcases hc : tbl.contains step.attributeName with _ | _ <;> rw [hc] at h <;>
      simp only [Bool.not_false, Bool.not_true] at h
    · cases h
      have hid := getAttributeId_of_not_mem step.attributeName tbl
        (not_mem_of_contains_false tbl step.attributeName hc)
      simp only [GenerationStepData.tryConvert, Distortion1dData.tryConvert, hid]
      rfl
    · cases h
  case distortAlongY step =>
    rcases hc : tbl.contains step.attributeName with _ | _ <;> rw [hc] at h <;>
      simp only [Bool.not_false, Bool.not_true] at h
    · cases h
      have hid := getAttributeId_of_not_mem step.attributeName tbl
        (not_mem_of_contains_false tbl step.attributeName hc)
      simp only [GenerationStepData.tryConvert, Distortion1dData.tryConvert, hid]
      rfl
    · cases h
  case distortion2d step =>
    rcases hc : tbl.contains step.attributeName with _ | _ <;> rw [hc] at h <;>
      simp only [Bool.not_false, Bool.not_true] at h
    · cases h
      have hid := getAttributeId_of_not_mem step.attributeName tbl
        (not_mem_of_contains_false tbl step.attributeName hc)
      simp only [GenerationStepData.tryConvert, Distortion2dData.tryConvert, hid]
      rfl
    · cases h
  case generatorAdd step =>
    rcases hc : tbl.contains step.attributeName with _ | _ <;> rw [hc] at h <;>
      simp only [Bool.not_false, Bool.not_true] at h
    · cases h
      have hid := getAttributeId_of_not_mem step.attributeName tbl
        (not_mem_of_contains_false tbl step.attributeName hc)
      simp only [GenerationStepData.tryConvert, GeneratorStepData.tryConvert, hid]
      rfl
    · cases h
  case generatorSub step =>
    rcases hc : tbl.contains step.attributeName with _ | _ <;> rw [hc] at h <;>
      simp only [Bool.not_false, Bool.not_true] at h
    · cases h
      have hid := getAttributeId_of_not_mem step.attributeName tbl
        (not_mem_of_contains_false tbl step.attributeName hc)
      simp only [GenerationStepData.tryConvert, GeneratorStepData.tryConvert, hid]
      rfl
    · cases h
  case modifyWithAttribute step =>
    rcases hc : tbl.contains step.source with _ | _ <;> rw [hc] at h <;>
      simp only [Bool.not_false, Bool.not_true] at h
    · cases h
      have hid := getAttributeId_of_not_mem step.source tbl
        (not_mem_of_contains_false tbl step.source hc)
      simp only [GenerationStepData.tryConvert, ModifyWithAttributeData.tryConvert, hid]
      rfl
    · rcases hc2 : tbl.contains step.target with _ | _ <;> rw [hc2] at h <;>
        simp only [Bool.not_false, Bool.not_true] at h
      · cases h
        obtain ⟨i, hi⟩ := getAttributeId_of_mem step.source tbl
          (List.mem_of_elem_eq_true hc)
        have hid := getAttributeId_of_not_mem step.target tbl
          (not_mem_of_contains_false tbl step.target hc2)
        simp only [GenerationStepData.tryConvert, ModifyWithAttributeData.tryConvert,
          hi, hid]
        rfl
      · cases h
  case transformAttribute2d step =>
    rcases hc : tbl.contains step.source0 with _ | _ <;> rw [hc] at h <;>
      simp only [Bool.not_false, Bool.not_true] at h
    · cases h
      have hid := getAttributeId_of_not_mem step.source0 tbl
        (not_mem_of_contains_false tbl step.source0 hc)
      simp only [GenerationStepData.tryConvert, TransformAttribute2dData.tryConvert, hid]
      rfl
    · rcases hc2 : tbl.contains step.source1 with _ | _ <;> rw [hc2] at h <;>
        simp only [Bool.not_false, Bool.not_true] at h
      · cases h
        obtain ⟨i, hi⟩ := getAttributeId_of_mem step.source0 tbl
          (List.mem_of_elem_eq_true hc)
        have hid := getAttributeId_of_not_mem step.source1 tbl
          (not_mem_of_contains_false tbl step.source1 hc2)
        simp only [GenerationStepData.tryConvert, TransformAttribute2dData.tryConvert,
          hi, hid]
        rfl
      · rcases hc3 : tbl.contains step.target with _ | _ <;> rw [hc3] at h <;>
          simp only [Bool.not_false, Bool.not_true] at h
        · cases h
          obtain ⟨i, hi⟩ := getAttributeId_of_mem step.source0 tbl
            (List.mem_of_elem_eq_true hc)
          obtain ⟨j, hj⟩ := getAttributeId_of_mem step.source1 tbl
            (List.mem_of_elem_eq_true hc2)
          have hid := getAttributeId_of_not_mem step.target tbl
            (not_mem_of_contains_false tbl step.target hc3)
          simp only [GenerationStepData.tryConvert, TransformAttribute2dData.tryConvert,
            hi, hj, hid]
          rfl
        · cases h

theorem transformer2d_tryConvert_ok (d : Transformer2dData) :
    ∃ t, d.tryConvert = .ok t := by
  cases d <;> exact ⟨_, rfl⟩

theorem step_ok (s : GenerationStepData) (tbl : List String)
    (hrefs : (stepRefs s).all (fun n => tbl.contains n) = true)
    (hcfg : (stepNoises s).all NoiseData.valid = true) :
    ∃ r, s.tryConvert tbl = .ok (r, tbl ++ stepDeclares s) := by
  cases s
  case createAttribute c => exact ⟨.createAttribute c, rfl⟩
  case distortAlongX step =>
    simp only [stepRefs, List.all_cons, List.all_nil, Bool.and_true] at hrefs
    obtain ⟨i, hi⟩ := getAttributeId_of_mem step.attributeName tbl
      (List.mem_of_elem_eq_true hrefs)
    obtain ⟨g, hg⟩ := generator1d_tryConvert_ok step.generator
      (by simpa [stepNoises] using hcfg)
    refine ⟨.distortAlongX ⟨i, g⟩, ?_⟩
    simp only [GenerationStepData.tryConvert, Distortion1dData.tryConvert, hi, hg,
      stepDeclares, List.append_nil]
    rfl
  case distortAlongY step =>
    simp only [stepRefs, List.all_cons, List.all_nil, Bool.and_true] at hrefs
    obtain ⟨i, hi⟩ := getAttributeId_of_mem step.attributeName tbl
      (List.mem_of_elem_eq_true hrefs)
    obtain ⟨g, hg⟩ := generator1d_tryConvert_ok step.generator
      (by simpa [stepNoises] using hcfg)
    refine ⟨.distortAlongY ⟨i, g⟩, ?_⟩
    simp only [GenerationStepData.tryConvert, Distortion1dData.tryConvert, hi, hg,
      stepDeclares, List.append_nil]
    rfl
  case generatorAdd step =>
    simp only [stepRefs, List.all_cons, List.all_nil, Bool.and_true] at hrefs
    obtain ⟨i, hi⟩ := getAttributeId_of_mem step.attributeName tbl
      (List.mem_of_elem_eq_true hrefs)
    obtain ⟨g, hg⟩ := generator2d_tryConvert_ok step.generator
      (by simpa [stepNoises] using hcfg)
    refine ⟨.generatorAdd ⟨i, g⟩, ?_⟩
    simp only [GenerationStepData.tryConvert, GeneratorStepData.tryConvert, hi, hg,
      stepDeclares, List.append_nil]
    rfl
  case generatorSub step =>
    simp only [stepRefs, List.all_cons, List.all_nil, Bool.and_true] at hrefs
    obtain ⟨i, hi⟩ := getAttributeId_of_mem step.attributeName tbl
      (List.mem_of_elem_eq_true hrefs)
    obtain ⟨g, hg⟩ := generator2d_tryConvert_ok step.generator
      (by simpa [stepNoises] using hcfg)
    refine ⟨.generatorSub ⟨i, g⟩, ?_⟩
    simp only [GenerationStepData.tryConvert, GeneratorStepData.tryConvert, hi, hg,
      stepDeclares, List.append_nil]
    rfl
  case distortion2d step =>
    simp only [stepRefs, List.all_cons, List.all_nil, Bool.and_true] at hrefs
    obtain ⟨i, hi⟩ := getAttributeId_of_mem step.attributeName tbl
      (List.mem_of_elem_eq_true hrefs)
    simp only [stepNoises, List.all_append, Bool.and_eq_true] at hcfg
    obtain ⟨gx, hgx⟩ := generator2d_tryConvert_ok step.generatorX hcfg.1
    obtain ⟨gy, hgy⟩ := generator2d_tryConvert_ok step.generatorY hcfg.2
    refine ⟨.distortion2d ⟨i, gx, gy⟩, ?_⟩
    simp only [GenerationStepData.tryConvert, Distortion2dData.tryConvert, hi, hgx, hgy,
      stepDeclares, List.append_nil]
    rfl
  case modifyWithAttribute step =>
    simp only [stepRefs, List.all_cons, List.all_nil, Bool.and_true,
      Bool.and_eq_true] at hrefs
    obtain ⟨i, hi⟩ := getAttributeId_of_mem step.source tbl
      (List.mem_of_elem_eq_true hrefs.1)
    obtain ⟨j, hj⟩ := getAttributeId_of_mem step.target tbl
      (List.mem_of_elem_eq_true hrefs.2)
    refine ⟨.modifyWithAttribute
      ⟨i, step.source, j, step.target, (step.percentage : ℚ) / 100, step.minimum⟩, ?_⟩
    simp only [GenerationStepData.tryConvert, ModifyWithAttributeData.tryConvert, hi, hj,
      stepDeclares, List.append_nil]
    rfl
  case transformAttribute2d step =>
    simp only [stepRefs, List.all_cons, List.all_nil, Bool.and_true,
      Bool.and_eq_true] at hrefs
    obtain ⟨i, hi⟩ := getAttributeId_of_mem step.source0 tbl
      (List.mem_of_elem_eq_true hrefs.1)
    obtain ⟨j, hj⟩ := getAttributeId_of_mem step.source1 tbl
      (List.mem_of_elem_eq_true hrefs.2.1)
    obtain ⟨k, hk⟩ := getAttributeId_of_mem step.target tbl
      (List.mem_of_elem_eq_true hrefs.2.2)
    obtain ⟨t, ht⟩ := transformer2d_tryConvert_ok step.transformer
    refine ⟨.transformAttribute2d
      ⟨i, j, k, ⟨step.name, step.source0, step.source1, step.target⟩, t⟩, ?_⟩
    simp only [GenerationStepData.tryConvert, TransformAttribute2dData.tryConvert,
      hi, hj, hk, ht, stepDeclares, List.append_nil]
    rfl

theorem transformer2d_round_trip (d : Transformer2dData) (t : Transformer2d)
    (h : d.tryConvert = .ok t) : Transformer2dData.ofTransformer t = d := by
  cases d <;> cases h <;> rfl

theorem step_round_trip (s : GenerationStepData) (tbl : List String)
    (r : GenerationStep) (tbl2 : List String)
    (hwt : stepWellTyped s = true)
    (h : s.tryConvert tbl = .ok (r, tbl2)) :
    GenerationStep.convert r tbl = (s, tbl2) := by
  cases s
  case createAttribute c =>
    have heq : GenerationStepData.tryConvert (.createAttribute c) tbl
        = .ok (.createAttribute c, tbl ++ [c.name]) := rfl
    rw [heq] at h
    injection h with hpair
    cases hpair
    rfl
  case distortAlongX step =>
    obtain ⟨sname, sgen⟩ := step
    rcases hid : getAttributeId sname tbl with e | i
    · have heq : GenerationStepData.tryConvert (.distortAlongX ⟨sname, sgen⟩) tbl
          = .error e := by
        simp only [GenerationStepData.tryConvert, Distortion1dData.tryConvert, hid]
        rfl
      rw [heq] at h
      exact Except.noConfusion h
    · rcases hg : sgen.tryConvert with e | g
      · have heq : GenerationStepData.tryConvert (.distortAlongX ⟨sname, sgen⟩) tbl
            = .error (GenerationStepError.generator1d e) := by
          simp only [GenerationStepData.tryConvert, Distortion1dData.tryConvert, hid, hg]
          rfl
        rw [heq] at h
        exact Except.noConfusion h
      · have heq : GenerationStepData.tryConvert (.distortAlongX ⟨sname, sgen⟩) tbl
            = .ok (.distortAlongX ⟨i, g⟩, tbl) := by
          simp only [GenerationStepData.tryConvert, Distortion1dData.tryConvert, hid, hg]
          rfl
        rw [heq] at h
        injection h with hpair
        cases hpair
        have hname := getD_of_getElem? tbl i sname (getAttributeId_ok_get sname tbl i hid)
        have hgen := generator1d_round_trip sgen g hwt hg
        simp only [GenerationStep.convert, Distortion1d.convert, hname, hgen]
  case distortAlongY step =>
    obtain ⟨sname, sgen⟩ := step
    rcases hid : getAttributeId sname tbl with e | i
    · have heq : GenerationStepData.tryConvert (.distortAlongY ⟨sname, sgen⟩) tbl
          = .error e := by
        simp only [GenerationStepData.tryConvert, Distortion1dData.tryConvert, hid]
        rfl
      rw [heq] at h
      exact Except.noConfusion h
    · rcases hg : sgen.tryConvert with e | g
      · have heq : GenerationStepData.tryConvert (.distortAlongY ⟨sname, sgen⟩) tbl
            = .error (GenerationStepError.generator1d e) := by
          simp only [GenerationStepData.tryConvert, Distortion1dData.tryConvert, hid, hg]
          rfl
        rw [heq] at h
        exact Except.noConfusion h
      · have heq : GenerationStepData.tryConvert (.distortAlongY ⟨sname, sgen⟩) tbl
            = .ok (.distortAlongY ⟨i, g⟩, tbl) := by
          simp only [GenerationStepData.tryConvert, Distortion1dData.tryConvert, hid, hg]
          rfl
        rw [heq] at h
        injection h with hpair
        cases hpair
        have hname := getD_of_getElem? tbl i sname (getAttributeId_ok_get sname tbl i hid)
        have hgen := generator1d_round_trip sgen g hwt hg
        simp only [GenerationStep.convert, Distortion1d.convert, hname, hgen]
  case generatorAdd step =>
    obtain ⟨sname, sgen⟩ := step
    rcases hid : getAttributeId sname tbl with e | i
    · have heq : GenerationStepData.tryConvert (.generatorAdd ⟨sname, sgen⟩) tbl
          = .error e := by
        simp only [GenerationStepData.tryConvert, GeneratorStepData.tryConvert, hid]
        rfl
      rw [heq] at h
      exact Except.noConfusion h
    · rcases hg : sgen.tryConvert with e | g
      · have heq : GenerationStepData.tryConvert (.generatorAdd ⟨sname, sgen⟩) tbl
            = .error (GenerationStepError.generator2d e) := by
          simp only [GenerationStepData.tryConvert, GeneratorStepData.tryConvert, hid, hg]
          rfl
        rw [heq] at h
        exact Except.noConfusion h
      · have heq : GenerationStepData.tryConvert (.generatorAdd ⟨sname, sgen⟩) tbl
            = .ok (.generatorAdd ⟨i, g⟩, tbl) := by
          simp only [GenerationStepData.tryConvert, GeneratorStepData.tryConvert, hid, hg]
          rfl
        rw [heq] at h
        injection h with hpair
        cases hpair
        have hname := getD_of_getElem? tbl i sname (getAttributeId_ok_get sname tbl i hid)
        have hgen := generator2d_round_trip sgen g hwt hg
        simp only [GenerationStep.convert, GeneratorStep.convert, hname, hgen]
  case generatorSub step =>
    obtain ⟨sname, sgen⟩ := step
    rcases hid : getAttributeId sname tbl with e | i
    · have heq : GenerationStepData.tryConvert (.generatorSub ⟨sname, sgen⟩) tbl
          = .error e := by
        simp only [GenerationStepData.tryConvert, GeneratorStepData.tryConvert, hid]
        rfl
      rw [heq] at h
      exact Except.noConfusion h
    · rcases hg : sgen.tryConvert with e | g
      · have heq : GenerationStepData.tryConvert (.generatorSub ⟨sname, sgen⟩) tbl
            = .error (GenerationStepError.generator2d e) := by
          simp only [GenerationStepData.tryConvert, GeneratorStepData.tryConvert, hid, hg]
          rfl
        rw [heq] at h
        exact Except.noConfusion h
      · have heq : GenerationStepData.tryConvert (.generatorSub ⟨sname, sgen⟩) tbl
            = .ok (.generatorSub ⟨i, g⟩, tbl) := by
          simp only [GenerationStepData.tryConvert, GeneratorStepData.tryConvert, hid, hg]
          rfl
        rw [heq] at h
        injection h with hpair
        cases hpair
        have hname := getD_of_getElem? tbl i sname (getAttributeId_ok_get sname tbl i hid)
        have hgen := generator2d_round_trip sgen g hwt hg
        simp only [GenerationStep.convert, GeneratorStep.convert, hname, hgen]
  case distortion2d step =>
    obtain ⟨sname, sgx, sgy⟩ := step
    rcases hid : getAttributeId sname tbl with e | i
    · have heq : GenerationStepData.tryConvert (.distortion2d ⟨sname, sgx, sgy⟩) tbl
          = .error e := by
        simp only [GenerationStepData.tryConvert, Distortion2dData.tryConvert, hid]
        rfl
      rw [heq] at h
      exact Except.noConfusion h
    · rcases hgx : sgx.tryConvert with e | gx
      · have heq : GenerationStepData.tryConvert (.distortion2d ⟨sname, sgx, sgy⟩) tbl
            = .error (GenerationStepError.generator2d e) := by
          simp only [GenerationStepData.tryConvert, Distortion2dData.tryConvert, hid, hgx]
          rfl
        rw [heq] at h
        exact Except.noConfusion h
      · rcases hgy : sgy.tryConvert with e | gy
        · have heq : GenerationStepData.tryConvert (.distortion2d ⟨sname, sgx, sgy⟩) tbl
              = .error (GenerationStepError.generator2d e) := by
            simp only [GenerationStepData.tryConvert, Distortion2dData.tryConvert,
              hid, hgx, hgy]
            rfl
          rw [heq] at h
          exact Except.noConfusion h
        · have heq : GenerationStepData.tryConvert (.distortion2d ⟨sname, sgx, sgy⟩) tbl
              = .ok (.distortion2d ⟨i, gx, gy⟩, tbl) := by
            simp only [GenerationStepData.tryConvert, Distortion2dData.tryConvert,
              hid, hgx, hgy]
            rfl
          rw [heq] at h
          injection h with hpair
          cases hpair
          have hname := getD_of_getElem? tbl i sname (getAttributeId_ok_get sname tbl i hid)
          have hwt2 : ((sgx.noises ++ sgy.noises).all NoiseData.wellTyped) = true := hwt
          rw [List.all_append, Bool.and_eq_true] at hwt2
          have hgenx := generator2d_round_trip sgx gx hwt2.1 hgx
          have hgeny := generator2d_round_trip sgy gy hwt2.2 hgy
          simp only [GenerationStep.convert, Distortion2d.convert, hname, hgenx, hgeny]
  case modifyWithAttribute step =>
    obtain ⟨ssource, starget, spercentage, sminimum⟩ := step
    rcases hi : getAttributeId ssource tbl with e | i
    · have heq : GenerationStepData.tryConvert
          (.modifyWithAttribute ⟨ssource, starget, spercentage, sminimum⟩) tbl
          = .error e := by
        simp only [GenerationStepData.tryConvert, ModifyWithAttributeData.tryConvert, hi]
        rfl
      rw [heq] at h
      exact Except.noConfusion h
    · rcases hj : getAttributeId starget tbl with e | j
      · have heq : GenerationStepData.tryConvert
            (.modifyWithAttribute ⟨ssource, starget, spercentage, sminimum⟩) tbl
            = .error e := by
          simp only [GenerationStepData.tryConvert, ModifyWithAttributeData.tryConvert,
            hi, hj]
          rfl
        rw [heq] at h
        exact Except.noConfusion h
      · have heq : GenerationStepData.tryConvert
            (.modifyWithAttribute ⟨ssource, starget, spercentage, sminimum⟩) tbl
            = .ok (.modifyWithAttribute
                ⟨i, ssource, j, starget, (spercentage : ℚ) / 100, sminimum⟩, tbl) := by
          simp only [GenerationStepData.tryConvert, ModifyWithAttributeData.tryConvert,
            hi, hj]
          rfl
        rw [heq] at h
        injection h with hpair
        cases hpair
        have hbounds : -2147483648 ≤ spercentage ∧ spercentage ≤ 2147483647 :=
          of_decide_eq_true hwt
        simp only [GenerationStep.convert, ModifyWithAttributeData.ofStep,
          ratAsI32_cast spercentage hbounds.1 hbounds.2]
  case transformAttribute2d step =>
    obtain ⟨sname, s0, s1, st, stf⟩ := step
    rcases hi : getAttributeId s0 tbl with e | i
    · have heq : GenerationStepData.tryConvert
          (.transformAttribute2d ⟨sname, s0, s1, st, stf⟩) tbl = .error e := by
        simp only [GenerationStepData.tryConvert, TransformAttribute2dData.tryConvert, hi]
        rfl
      rw [heq] at h
      exact Except.noConfusion h
    · rcases hj : getAttributeId s1 tbl with e | j
      · have heq : GenerationStepData.tryConvert
            (.transformAttribute2d ⟨sname, s0, s1, st, stf⟩) tbl = .error e := by
          simp only [GenerationStepData.tryConvert, TransformAttribute2dData.tryConvert,
            hi, hj]
          rfl
        rw [heq] at h
        exact Except.noConfusion h
      · rcases hk : getAttributeId st tbl with e | k
        · have heq : GenerationStepData.tryConvert
              (.transformAttribute2d ⟨sname, s0, s1, st, stf⟩) tbl = .error e := by
            simp only [GenerationStepData.tryConvert, TransformAttribute2dData.tryConvert,
              hi, hj, hk]
            rfl
          rw [heq] at h
          exact Except.noConfusion h
        · rcases htf : stf.tryConvert with e | t
          · have heq : GenerationStepData.tryConvert
                (.transformAttribute2d ⟨sname, s0, s1, st, stf⟩) tbl
                = .error (GenerationStepError.transformer2d e) := by
              simp only [GenerationStepData.tryConvert,
                TransformAttribute2dData.tryConvert, hi, hj, hk, htf]
              rfl
            rw [heq] at h
            exact Except.noConfusion h
          · have heq : GenerationStepData.tryConvert
                (.transformAttribute2d ⟨sname, s0, s1, st, stf⟩) tbl
                = .ok (.transformAttribute2d ⟨i, j, k, ⟨sname, s0, s1, st⟩, t⟩, tbl) := by
              simp only [GenerationStepData.tryConvert,
                TransformAttribute2dData.tryConvert, hi, hj, hk, htf]
              rfl
            rw [heq] at h
            injection h with hpair
            cases hpair
            simp only [GenerationStep.convert, TransformAttribute2dData.ofStep,
              transformer2d_round_trip stf t htf]

theorem declaredAttributes_cons (s : GenerationStepData) (rest : List GenerationStepData) :
    declaredAttributes (s :: rest) = stepDeclares s ++ declaredAttributes rest := by
  simp [declaredAttributes]

theorem tryConvertSteps_table :
    ∀ (steps : List GenerationStepData) (tbl : List String) (idx : Nat)
      (rs : List GenerationStep) (tbl2 : List String),
      tryConvertSteps steps tbl idx = .ok (rs, tbl2) →
      tbl2 = tbl ++ declaredAttributes steps := by
  intro steps
  induction steps with
  | nil =>
    intro tbl idx rs tbl2 h
    injection h with hpair
    injection hpair with h1 h2
    simp [declaredAttributes, ← h2]
  | cons s rest ih =>
    intro tbl idx rs tbl2 h
    unfold tryConvertSteps at h
    rcases hS : s.tryConvert tbl with e | rp
    · rw [hS] at h
      exact Except.noConfusion h
    · obtain ⟨r, tblA⟩ := rp
      rw [hS] at h
      dsimp only at h
      rcases hR : tryConvertSteps rest tblA (idx + 1) with e | rp2
      · rw [hR] at h
        exact Except.noConfusion h
      · obtain ⟨rs2, tblB⟩ := rp2
        rw [hR] at h
        injection h with hpair
        injection hpair with h1 h2
        subst h2
        rw [ih tblA (idx + 1) rs2 tblB hR, step_table s tbl tblA r hS,
          declaredAttributes_cons, List.append_assoc]

theorem tryConvertSteps_ok :
    ∀ (steps : List GenerationStepData) (tbl : List String) (idx : Nat),
      validRefsFrom steps tbl = true →
      steps.all (fun s => (stepNoises s).all NoiseData.valid) = true →
      ∃ rs, tryConvertSteps steps tbl idx = .ok (rs, tbl ++ declaredAttributes steps) := by
  intro steps
  induction steps with
  | nil =>
    intro tbl idx _ _
    refine ⟨[], ?_⟩
    simp [tryConvertSteps, declaredAttributes]
  | cons s rest ih =>
    intro tbl idx hrefs hcfg
    unfold validRefsFrom at hrefs
    rw [Bool.and_eq_true] at hrefs
    rw [List.all_cons, Bool.and_eq_true] at hcfg
    obtain ⟨r, hr⟩ := step_ok s tbl hrefs.1 hcfg.1
    obtain ⟨rs, hrs⟩ := ih (tbl ++ stepDeclares s) (idx + 1) hrefs.2 hcfg.2
    refine ⟨r :: rs, ?_⟩
    unfold tryConvertSteps
    rw [hr]
    dsimp only
    rw [hrs, declaredAttributes_cons, List.append_assoc]

theorem tryConvertSteps_append_fail :
    ∀ (pre : List GenerationStepData) (s : GenerationStepData)
      (post : List GenerationStepData) (tbl : List String) (idx : Nat)
      (rs : List GenerationStep) (tbl2 : List String) (n : String),
      tryConvertSteps pre tbl idx = .ok (rs, tbl2) →
      firstBadRef s tbl2 = some n →
      tryConvertSteps (pre ++ s :: post) tbl idx
        = .error (.generationStep (idx + pre.length) (.attributeUnknown n)) := by
  intro pre
  induction pre with
  | nil =>
    intro s post tbl idx rs tbl2 n h hbad
    injection h with hpair
    injection hpair with h1 h2
    subst h2
    show tryConvertSteps (s :: post) tbl idx = _
    unfold tryConvertSteps
    rw [step_fail s tbl n hbad]
    simp
  | cons a pre' ih =>
    intro s post tbl idx rs tbl2 n h hbad
    unfold tryConvertSteps at h
    rcases hA : a.tryConvert tbl with e | rp
    · rw [hA] at h
      exact Except.noConfusion h
    · obtain ⟨r, tblA⟩ := rp
      rw [hA] at h
      dsimp only at h
      rcases hR : tryConvertSteps pre' tblA (idx + 1) with e | rp2
      · rw [hR] at h
        exact Except.noConfusion h
      · obtain ⟨rs2, tblB⟩ := rp2
        rw [hR] at h
        injection h with hpair
        injection hpair with h1 h2
        subst h2
        have hres := ih s post tblA (idx + 1) rs2 tblB n hR hbad
        show tryConvertSteps (a :: (pre' ++ s :: post)) tbl idx = _
        unfold tryConvertSteps
        rw [hA]
        dsimp only
        rw [hres]
        have hlen : idx + 1 + pre'.length = idx + (a :: pre').length := by
          simp [List.length_cons]
          omega
        rw [hlen]

theorem convertSteps_round_trip :
    ∀ (steps : List GenerationStepData) (tbl : List String) (idx : Nat)
      (rs : List GenerationStep) (tbl2 : List String),
      steps.all stepWellTyped = true →
      tryConvertSteps steps tbl idx = .ok (rs, tbl2) →
      convertSteps rs tbl = (steps, tbl2) := by
  intro steps
  induction steps with
  | nil =>
    intro tbl idx rs tbl2 _ h
    injection h with hpair
    injection hpair with h1 h2
    subst h2
    rw [← h1]
    rfl
  | cons s rest ih =>
    intro tbl idx rs tbl2 hwt h
    rw [List.all_cons, Bool.and_eq_true] at hwt
    unfold tryConvertSteps at h
    rcases hS : s.tryConvert tbl with e | rp
    · rw [hS] at h
      exact Except.noConfusion h
    · obtain ⟨r, tblA⟩ := rp
      rw [hS] at h
      dsimp only at h
      rcases hR : tryConvertSteps rest tblA (idx + 1) with e | rp2
      · rw [hR] at h
        exact Except.noConfusion h
      · obtain ⟨rs2, tblB⟩ := rp2
        rw [hR] at h
        injection h with hpair
        injection hpair with h1 h2
        subst h2
        rw [← h1]
        unfold convertSteps
        rw [step_round_trip s tbl r tblA hwt.1 hS]
        dsimp only
        rw [ih tblA (idx + 1) rs2 tblB hwt.2 hR]

/-- Counterexample for C1 as stated: a pipeline whose steps reference only
attribute names declared by strictly earlier `CreateAttribute` steps, yet
whose resolution fails — the distortion step carries a noise generator with
scale 0, which `Noise::new` rejects during resolution. -/
theorem c1_counterexample :
    MapGenerationData.validRefs
      ⟨"map", ⟨2, 2⟩, [.createAttribute ⟨"a", 0⟩,
        .distortion2d ⟨"a", .noise2d ⟨0, 0, 0, 255⟩, .indexGenerator ⟨1, 1⟩⟩]⟩ = true ∧
    MapGeneration.tryFrom
      ⟨"map", ⟨2, 2⟩, [.createAttribute ⟨"a", 0⟩,
        .distortion2d ⟨"a", .noise2d ⟨0, 0, 0, 255⟩, .indexGenerator ⟨1, 1⟩⟩]⟩
      = .error (.generationStep 1
          (.generator2d (.noise "Noise's scale must be positive!"))) := by
  constructor
  · decide
  · have hn : Noise.tryFrom ⟨0, 0, 0, 255⟩
        = .error "Noise's scale must be positive!" := by
      unfold Noise.tryFrom Noise.new
      rw [if_pos]
      norm_num
    have hgx : Generator2dData.tryConvert (.noise2d ⟨0, 0, 0, 255⟩)
        = .error (.noise "Noise's scale must be positive!") := by
      simp only [Generator2dData.tryConvert, hn]
    have hid : getAttributeId "a" ["a"] = .ok 0 := rfl
    have hstep : GenerationStepData.tryConvert
        (.distortion2d ⟨"a", .noise2d ⟨0, 0, 0, 255⟩, .indexGenerator ⟨1, 1⟩⟩) ["a"]
        = .error (.generator2d (.noise "Noise's scale must be positive!")) := by
      simp only [GenerationStepData.tryConvert, Distortion2dData.tryConvert, hid, hgx]
      rfl
    unfold MapGeneration.tryFrom
    unfold tryConvertSteps
    rw [show GenerationStepData.tryConvert (.createAttribute ⟨"a", 0⟩) []
      = .ok (.createAttribute ⟨"a", 0⟩, ["a"]) from rfl]
    dsimp only
    unfold tryConvertSteps
    rw [hstep]

/-- C1 (amended): for every portable pipeline description whose steps
reference only attribute names declared by strictly earlier `CreateAttribute`
steps and whose generator configurations are valid (every noise payload has a
positive scale and `min_value < max_value`; `wellTyped` only restates the
Rust field types `u32`/`u8`/`i32`), resolution into a `MapGeneration`
succeeds and serializing the result back yields a structurally identical
`MapGenerationData` — same name, same size, same step list. -/
theorem c1_round_trip (data : MapGenerationData)
    (hrefs : data.validRefs = true)
    (hcfg : data.validConfigs = true)
    (hwt : data.wellTyped = true) :
    ∃ g, MapGeneration.tryFrom data = .ok g ∧
      MapGenerationData.ofGeneration g = data := by
  obtain ⟨name, size, steps⟩ := data
  obtain ⟨rs, hrs⟩ := tryConvertSteps_ok steps [] 0 hrefs hcfg
  refine ⟨⟨name, size, rs⟩, ?_, ?_⟩
  · unfold MapGeneration.tryFrom
    rw [hrs]
  · unfold MapGenerationData.ofGeneration
    have hconv := convertSteps_round_trip steps [] 0 rs ([] ++ declaredAttributes steps)
      hwt hrs
    rw [hconv]

/-- Witness for C1: the crate's own doctest pipeline — two creates and a
modify — resolves and round trips. -/
theorem c1_witness :
    MapGenerationData.validRefs
      ⟨"map", ⟨4, 5⟩, [.createAttribute ⟨"a0", 42⟩, .createAttribute ⟨"a1", 200⟩,
        .modifyWithAttribute ⟨"a0", "a1", 100, 10⟩]⟩ = true ∧
    ∃ g, MapGeneration.tryFrom
        ⟨"map", ⟨4, 5⟩, [.createAttribute ⟨"a0", 42⟩, .createAttribute ⟨"a1", 200⟩,
          .modifyWithAttribute ⟨"a0", "a1", 100, 10⟩]⟩ = .ok g ∧
      MapGenerationData.ofGeneration g
        = ⟨"map", ⟨4, 5⟩, [.createAttribute ⟨"a0", 42⟩, .createAttribute ⟨"a1", 200⟩,
            .modifyWithAttribute ⟨"a0", "a1", 100, 10⟩]⟩ :=
  ⟨by decide,
    c1_round_trip
      ⟨"map", ⟨4, 5⟩, [.createAttribute ⟨"a0", 42⟩, .createAttribute ⟨"a1", 200⟩,
        .modifyWithAttribute ⟨"a0", "a1", 100, 10⟩]⟩
      (by decide) (by decide) (by decide)⟩

/-- C2: resolution processes the steps strictly in order against a growing
table of declared attribute names — after a prefix resolves, the table is
exactly the names of the prefix's `CreateAttribute` steps in order (each new
name appended at the next free index) — and when the next step's first
unresolvable reference (against the table built so far) is `n`, the whole
resolution fails with `AttributeUnknown(n)` wrapped with that step's
position, regardless of the steps that follow: a later `CreateAttribute` of
`n` (in `post`) never retroactively validates the earlier reference. -/
theorem c2_resolution_order (name : String) (size : Size2d)
    (pre : List GenerationStepData) (s : GenerationStepData)
    (post : List GenerationStepData) (rs : List GenerationStep)
    (tbl : List String) (n : String)
    (h1 : tryConvertSteps pre [] 0 = .ok (rs, tbl))
    (h2 : firstBadRef s tbl = some n) :
    tbl = declaredAttributes pre ∧
    MapGeneration.tryFrom ⟨name, size, pre ++ s :: post⟩
      = .error (.generationStep pre.length (.attributeUnknown n)) := by
  constructor
  · have h := tryConvertSteps_table pre [] 0 rs tbl h1
    simpa using h
  · unfold MapGeneration.tryFrom
    rw [tryConvertSteps_append_fail pre s post [] 0 rs tbl n h1 h2]
    simp

/-- Witness for C2: `[create "a0"] ++ [modify "a0" -> "a1"] ++ [create "a1"]`
fails at step 1 with `AttributeUnknown "a1"` even though `"a1"` is declared
by the later create — the crate's own doctest example. -/
theorem c2_witness :
    ["a0"] = declaredAttributes [.createAttribute ⟨"a0", 0⟩] ∧
    MapGeneration.tryFrom
      ⟨"map", ⟨4, 5⟩, [.createAttribute ⟨"a0", 0⟩]
        ++ GenerationStepData.modifyWithAttribute ⟨"a0", "a1", 100, 10⟩
          :: [.createAttribute ⟨"a1", 0⟩]⟩
      = .error (.generationStep 1 (.attributeUnknown "a1")) :=
  c2_resolution_order "map" ⟨4, 5⟩ [.createAttribute ⟨"a0", 0⟩]
    (.modifyWithAttribute ⟨"a0", "a1", 100, 10⟩) [.createAttribute ⟨"a1", 0⟩]
    [.createAttribute ⟨"a0", 0⟩] ["a0"] "a1" rfl (by decide)

end Ofws
